import Mathlib

/-!
Verification of the client snapshot state engine of libcrush
(src/kernel/snap.c), following the repository specification.

The snap engine maintains a forest of snap realms indexed by inode number
(a radix tree in the C code, an association list here), derives per-realm
snap contexts, and queues per-inode cap-snaps.  Machine integers (u64,
u32) are modelled as Nat; the only place where wraparound is observable in
the verified claims is the computation follows = snapc->seq - 1, which is
modelled with an explicit mod 2^64.  Reference counts (int in C) are
modelled as Int so that decrementing zero does not spuriously hit zero
again.  Fallible allocation is modelled by an allocation oracle telling,
per call site and key, whether the allocation succeeds.  Recursions that
the C code performs over the (acyclic) realm forest are modelled with an
explicit fuel parameter; fuel exhaustion yields a distinguished error code
that never occurs on the configurations the theorems speak about.
-/

/-- Modulus of a 64-bit unsigned integer. -/
def U64 : Nat := 18446744073709551616

/-- Modelled from the spec: entity type codes of section 3.1 come from
ceph_fs.h, which is not part of the sources; only distinctness of MDS from
the other types is used. -/
def CEPH_ENTITY_TYPE_MDS : Nat := 2

/-- Modelled from the spec: snap operation codes of section 6 come from
ceph_fs.h, which is not part of the sources; only distinctness of the four
codes is used. -/
def CEPH_SNAP_OP_UPDATE : Nat := 0

/-- Modelled from the spec: see CEPH_SNAP_OP_UPDATE. -/
def CEPH_SNAP_OP_CREATE : Nat := 1

/-- Modelled from the spec: see CEPH_SNAP_OP_UPDATE. -/
def CEPH_SNAP_OP_DESTROY : Nat := 2

/-- Modelled from the spec: see CEPH_SNAP_OP_UPDATE. -/
def CEPH_SNAP_OP_SPLIT : Nat := 3

/-- Modelled from the spec: the write-capability bit of the capability
bitmask (ceph_fs.h is not in the sources); only the bit being fixed and
nonzero matters. -/
def CEPH_CAP_WR : Nat := 16

/-- An immutable snap context: sequence number and the snap ids applying
to a realm, kept in reverse-sorted order (struct ceph_snap_context). -/
structure SnapContext where
  seq : Nat
  snaps : List Nat
deriving Repr, DecidableEq

/-- A snap realm (struct ceph_snap_realm).  The radix-tree index and the
linked lists of the C code are modelled by keyed lists of inode numbers;
the parent pointer is the key of the parent realm, none when NULL. -/
structure SnapRealm where
  ino : Nat
  nref : Int
  created : Nat
  seq : Nat
  parent_ino : Nat
  parent : Option Nat
  parent_since : Nat
  prior_parent_snaps : List Nat
  snaps : List Nat
  cached_context : Option SnapContext
  children : List Nat
  inodes_with_caps : List Nat
deriving Repr, DecidableEq

/-- A cap-snap (struct ceph_cap_snap): metadata frozen for one snapshot
of one inode. -/
structure CapSnap where
  follows : Nat
  context : SnapContext
  issued : Nat
  size : Nat
  mtime : Nat
  atime : Nat
  ctime : Nat
  time_warp_seq : Nat
  dirty : Nat
  writing : Bool
deriving Repr, DecidableEq

/-- The per-inode state the snap engine touches (the relevant fields of
struct ceph_inode_info together with the vfs inode stat data). -/
structure CephInode where
  i_size : Nat
  i_mtime : Nat
  i_atime : Nat
  i_ctime : Nat
  i_time_warp_seq : Nat
  i_wrbuffer_ref_head : Nat
  caps_used : Nat
  caps_issued : Nat
  i_cap_snaps : List CapSnap
  i_snap_realm : Option Nat
deriving Repr, DecidableEq

/-- The realm index: ino keyed, mirroring mdsc->snap_realms. -/
def RealmMap : Type := List (Nat × SnapRealm)
deriving Repr, DecidableEq

/-- Global state: the realm index, the process-wide snap flush list, the
inode table (the VFS icache restricted to what ceph_find_inode can
return), and the mds session table (mds rank mapped to s_seq). -/
structure Mdsc where
  snap_realms : RealmMap
  snap_flush_list : List Nat
  inodes : List (Nat × CephInode)
  sessions : List (Nat × Nat)
deriving Repr, DecidableEq

/-- Allocation oracle: which allocations succeed, per call site and key.
realmOk governs the kzalloc in ceph_get_snap_realm, ctxOk the kzalloc of
a snap context in build_snap_context, dupOk1 and dupOk2 the two dup_array
calls in ceph_update_snap_trace, capsnapOk the kzalloc in
ceph_queue_cap_snap. -/
structure AllocOracle where
  realmOk : Nat → Bool
  ctxOk : Nat → Bool
  dupOk1 : Nat → Bool
  dupOk2 : Nat → Bool
  capsnapOk : Nat → Bool

/-- The oracle under which every allocation succeeds. -/
def oAll : AllocOracle :=
  ⟨fun _ => true, fun _ => true, fun _ => true, fun _ => true, fun _ => true⟩

/-- Lookup in a keyed list (radix_tree_lookup). -/
def alookup {α : Type} : List (Nat × α) → Nat → Option α
  | [], _ => none
  | (k, v) :: t, k' => if k' = k then some v else alookup t k'

/-- Replace the value stored under a key, leaving the list unchanged when
the key is absent (in-place update through a looked-up pointer). -/
def aset {α : Type} : List (Nat × α) → Nat → α → List (Nat × α)
  | [], _, _ => []
  | (a, b) :: t, k, v =>
    if a = k then (k, v) :: aset t k v else (a, b) :: aset t k v

/-- Remove a key (radix_tree_delete). -/
def aerase {α : Type} : List (Nat × α) → Nat → List (Nat × α)
  | [], _ => []
  | (a, b) :: t, k =>
    if a = k then aerase t k else (a, b) :: aerase t k

/-- Reverse sort used on the snap vector: cmpu64_rev orders two u64 in
decreasing order, and the kernel sort produces some non-increasingly
sorted permutation; on Nat keys equal elements are identical, so any
comparison sort computes this same list. -/
def sortRev (l : List Nat) : List Nat :=
  List.insertionSort (fun a b => a ≥ b) l

/-- Find or create the realm rooted at ino and bump its reference count
(ceph_get_snap_realm).  A fresh realm is zero-filled, inserted in the
index without the index taking a reference, and handed out with one
reference.  Returns the map and either the realm key or -ENOMEM. -/
def ceph_get_snap_realm (o : AllocOracle) (m : RealmMap) (ino : Nat) :
    RealmMap × Except Int Nat :=
  match alookup m ino with
  | some r => (aset m ino {r with nref := r.nref + 1}, Except.ok ino)
  | none =>
    if o.realmOk ino then
      ((ino, ⟨ino, 1, 0, 0, 0, none, 0, [], [], none, [], []⟩) :: m, Except.ok ino)
    else (m, Except.error (-12))

/-- Drop a reference on a realm (ceph_put_snap_realm).  When the count
reaches zero the realm is unhooked from its parent's child list, one
reference on the parent is dropped recursively, and the realm is deleted
from the index.  Fuel bounds the parent chain. -/
def ceph_put_snap_realm : Nat → RealmMap → Nat → RealmMap
  | 0, m, _ => m
  | fuel + 1, m, ino =>
    match alookup m ino with
    | none => m
    | some r =>
      let r1 : SnapRealm := {r with nref := r.nref - 1}
      if r1.nref = 0 then
        let m1 := aset m ino r1
        let m2 :=
          match r1.parent with
          | some p =>
            let m1a :=
              match alookup m1 p with
              | some pr => aset m1 p {pr with children := pr.children.erase ino}
              | none => m1
            ceph_put_snap_realm fuel m1a p
          | none => m1
        aerase m2 ino
      else aset m ino r1

/-- Adjust the parent of a realm (adjust_snap_realm_parent): take a
reference on the new parent (creating it if needed), unhook from and drop
the old parent, and record the new parent in the parent pointer, the
parent_ino field and the new parent's child list.  Returns 1 when the
parent changed, 0 when unchanged, an error code on allocation failure. -/
def adjust_snap_realm_parent (o : AllocOracle) (fuel : Nat) (m : RealmMap)
    (ino parentino : Nat) : RealmMap × Except Int Nat :=
  match alookup m ino with
  | none => (m, Except.error (-14))
  | some r =>
    if r.parent_ino = parentino then (m, Except.ok 0)
    else
      match ceph_get_snap_realm o m parentino with
      | (_, Except.error e) => (m, Except.error e)
      | (m1, Except.ok _) =>
        let m2 :=
          match (alookup m1 ino).bind (fun r' => r'.parent) with
          | some oldp =>
            let m1a :=
              match alookup m1 oldp with
              | some opr => aset m1 oldp {opr with children := opr.children.erase ino}
              | none => m1
            ceph_put_snap_realm fuel m1a oldp
          | none => m1
        match alookup m2 ino with
        | none => (m2, Except.error (-14))
        | some r2 =>
          let m3 := aset m2 ino {r2 with parent_ino := parentino, parent := some parentino}
          match alookup m3 parentino with
          | some pr => (aset m3 parentino {pr with children := ino :: pr.children}, Except.ok 1)
          | none => (m3, Except.ok 1)

/-- Clear a realm's cached context (the fail path of build_snap_context). -/
def clearCached (m : RealmMap) (ino : Nat) : RealmMap :=
  match alookup m ino with
  | some r => aset m ino {r with cached_context := none}
  | none => m

/-- The snap entries of the parent context a realm inherits: those at or
after the seq at which the current parent became parent. -/
def parentEntriesSince (pc : Option SnapContext) (since : Nat) : List Nat :=
  match pc with
  | some q => q.snaps.filter (fun s => decide (since ≤ s))
  | none => []

/-- The cached context of a realm's parent, when both exist. -/
def parentCtx (m : RealmMap) (r : SnapRealm) : Option SnapContext :=
  match r.parent with
  | some p => (alookup m p).bind (fun pr => pr.cached_context)
  | none => none

/-- The short-circuit test of build_snap_context: the cached context is
still valid when its seq is at most the realm seq and, with a parent, at
most the parent's cached seq. -/
def buildUnchanged (r : SnapRealm) (pc : Option SnapContext) : Bool :=
  match r.cached_context with
  | none => false
  | some c =>
    decide (c.seq ≤ r.seq) &&
      (match r.parent with
       | none => true
       | some _ =>
         match pc with
         | some q => decide (c.seq ≤ q.seq)
         | none => false)

/-- Build the snap context for a realm (build_snap_context): first build
the parent's context if it is missing, short-circuit when nothing
changed, otherwise allocate a fresh context whose seq is the realm seq
capped from below by the parent context seq and whose snap vector is the
reverse-sorted concatenation of the inherited parent entries, the realm's
own snaps and its prior parent snaps.  On failure the (stale) cached
context is cleared.  Returns the map and a C-style status, 0 on
success. -/
def build_snap_context (o : AllocOracle) : Nat → RealmMap → Nat → RealmMap × Int
  | 0, m, _ => (m, -1000)
  | fuel + 1, m, ino =>
    match alookup m ino with
    | none => (m, -14)
    | some r =>
      let built : RealmMap × Int :=
        match r.parent with
        | some p =>
          match alookup m p with
          | none => (m, -14)
          | some pr =>
            if pr.cached_context = none then build_snap_context o fuel m p
            else (m, 0)
        | none => (m, 0)
      if built.2 ≠ 0 then (clearCached built.1 ino, built.2)
      else
        match alookup built.1 ino with
        | none => (built.1, -14)
        | some r1 =>
          if buildUnchanged r1 (parentCtx built.1 r1) then (built.1, 0)
          else if ¬ o.ctxOk ino then (clearCached built.1 ino, -12)
          else
            let pc := parentCtx built.1 r1
            let sq : Nat :=
              match pc with
              | some q => if r1.seq < q.seq then q.seq else r1.seq
              | none => r1.seq
            let snapc : SnapContext :=
              ⟨sq, sortRev (parentEntriesSince pc r1.parent_since ++
                            r1.snaps ++ r1.prior_parent_snaps)⟩
            (aset built.1 ino {r1 with cached_context := some snapc}, 0)

/-- Rebuild the contexts of a worklist of realms depth-first
(rebuild_snap_realms): build the realm's context, ignoring errors, then
recurse into its children before the rest of the worklist. -/
def rebuild_list (o : AllocOracle) : Nat → RealmMap → List Nat → RealmMap
  | 0, m, _ => m
  | _ + 1, m, [] => m
  | fuel + 1, m, ino :: rest =>
    let m1 := (build_snap_context o (fuel + 1) m ino).1
    let cs : List Nat :=
      match alookup m1 ino with
      | some r => r.children
      | none => []
    rebuild_list o fuel (rebuild_list o fuel m1 cs) rest

/-- Rebuild the snap context of a realm and of all of its descendants
(rebuild_snap_realms). -/
def rebuild_snap_realms (o : AllocOracle) (fuel : Nat) (m : RealmMap) (ino : Nat) :
    RealmMap :=
  rebuild_list o fuel m [ino]

/-- Modelled from the spec: __ceph_have_pending_cap_snap lives in super.h,
which is not in the sources.  Per the spec a pending cap-snap is one with
writing still true, and queuing is skipped while one exists. -/
def havePending (ci : CephInode) : Bool :=
  ci.i_cap_snaps.any (fun cs => cs.writing)

/-- Finalize the size and times of a cap-snap (__ceph_finish_cap_snap).
The kernel BUG_ON(capsnap->writing) is modelled by returning none when it
fires; otherwise the final stat metadata is captured and, when no dirty
pages remain, the inode is appended to the process-wide snap flush list
with return value 1; with dirty pages it stays pending with return value
0. -/
def ceph_finish_cap_snap (st : Mdsc) (i : Nat) (cs : CapSnap) :
    Option (Mdsc × CapSnap × Int) :=
  if cs.writing then none
  else
    match alookup st.inodes i with
    | none => none
    | some ci =>
      let cs1 : CapSnap :=
        {cs with size := ci.i_size, mtime := ci.i_mtime, atime := ci.i_atime,
                 ctime := ci.i_ctime, time_warp_seq := ci.i_time_warp_seq}
      if 0 < cs1.dirty then some (st, cs1, 0)
      else some ({st with snap_flush_list := st.snap_flush_list ++ [i]}, cs1, 1)

/-- Queue a cap-snap on an inode (ceph_queue_cap_snap).  The allocation
happens before any check; if a pending cap-snap already exists the fresh
one is discarded and nothing changes.  Otherwise the cap-snap records
follows = snapc->seq - 1 (u64 arithmetic), the context, the issued
capabilities and the head dirty-page counter, which is transferred out of
the inode; the cap-snap is appended to the inode's list and is either
marked writing when a write capability is in use or finalized at once. -/
def ceph_queue_cap_snap (o : AllocOracle) (st : Mdsc) (i : Nat)
    (snapc : SnapContext) : Mdsc :=
  if ¬ o.capsnapOk i then st
  else
    match alookup st.inodes i with
    | none => st
    | some ci =>
      if havePending ci then st
      else
        let cs0 : CapSnap :=
          ⟨(snapc.seq + (U64 - 1)) % U64, snapc, ci.caps_issued,
           0, 0, 0, 0, 0, ci.i_wrbuffer_ref_head, false⟩
        if ci.caps_used &&& CEPH_CAP_WR ≠ 0 then
          let csW : CapSnap := {cs0 with writing := true}
          let ciW : CephInode :=
            {ci with i_wrbuffer_ref_head := 0, i_cap_snaps := ci.i_cap_snaps ++ [csW]}
          {st with inodes := aset st.inodes i ciW}
        else
          match ceph_finish_cap_snap st i cs0 with
          | some (st1, cs1, _) =>
            let ciF : CephInode :=
              {ci with i_wrbuffer_ref_head := 0, i_cap_snaps := ci.i_cap_snaps ++ [cs1]}
            {st1 with inodes := aset st1.inodes i ciF}
          | none => st

/-- Queue a cap-snap under a realm's cached context.  The C code passes
realm->cached_context as a raw pointer and would dereference NULL; in the
configurations the theorems quantify over the context is always built, so
the none branch is unreachable there. -/
def queueWithCtx (o : AllocOracle) (st : Mdsc) (i : Nat)
    (c : Option SnapContext) : Mdsc :=
  match c with
  | some snapc => ceph_queue_cap_snap o st i snapc
  | none => st

/-- One encoded realm of a snap trace (struct ceph_mds_snap_realm plus
its two trailing snap-id arrays, already byte-decoded). -/
structure MdsSnapRealmEnc where
  ino : Nat
  created : Nat
  seq : Nat
  parent : Nat
  parent_since : Nat
  snaps : List Nat
  prior_parent_snaps : List Nat
deriving Repr, DecidableEq

/-- Bump a realm's reference count in place (realm->nref++). -/
def bumpNref (m : RealmMap) (ino : Nat) : RealmMap :=
  match alookup m ino with
  | some r => aset m ino {r with nref := r.nref + 1}
  | none => m

/-- First half of the per-realm body of the more loop of
ceph_update_snap_trace: look up or create the realm, bump an extra
reference when it is the first realm of the trace, and, when the encoded
seq is ahead of the stored seq and the operation is not a deletion, queue
a cap-snap on every inode holding caps in the realm under the realm's
current cached context - all before any realm field changes. -/
def itemQueuePhase (o : AllocOracle) (deletion : Bool) (enc : MdsSnapRealmEnc)
    (isFirst : Bool) (st : Mdsc) : Mdsc × Except Int Unit :=
  match ceph_get_snap_realm o st.snap_realms enc.ino with
  | (_, Except.error e) => (st, Except.error e)
  | (m1, Except.ok _) =>
    let m2 := if isFirst then bumpNref m1 enc.ino else m1
    let st2 : Mdsc := {st with snap_realms := m2}
    match alookup m2 enc.ino with
    | none => (st2, Except.error (-14))
    | some r =>
      if decide (r.seq < enc.seq) && !deletion then
        (List.foldl (fun s i => queueWithCtx o s i r.cached_context) st2
          r.inodes_with_caps, Except.ok ())
      else (st2, Except.ok ())

/-- The field-copy tail of the per-realm body, run after the parent
adjustment: when the encoded seq is ahead of the stored one, copy seq,
created, parent_since and the two snap arrays (each dup_array call can
fail); otherwise just note whether a context rebuild is needed. -/
def itemFieldsUpdate (o : AllocOracle) (enc : MdsSnapRealmEnc) (st4 : Mdsc)
    (inv1 : Nat) : Mdsc × Except Int Nat :=
  match alookup st4.snap_realms enc.ino with
  | none => (st4, Except.error (-14))
  | some r1 =>
    if decide (r1.seq < enc.seq) then
      let r2 : SnapRealm :=
        {r1 with seq := enc.seq, created := enc.created,
                 parent_since := enc.parent_since}
      if enc.snaps ≠ [] && ¬ o.dupOk1 enc.ino then
        let rFail1 : SnapRealm := {r2 with snaps := []}
        ({st4 with snap_realms := aset st4.snap_realms enc.ino rFail1},
         Except.error (-12))
      else
        let r3 : SnapRealm := {r2 with snaps := enc.snaps}
        if enc.prior_parent_snaps ≠ [] && ¬ o.dupOk2 enc.ino then
          let rFail2 : SnapRealm := {r3 with prior_parent_snaps := []}
          ({st4 with snap_realms := aset st4.snap_realms enc.ino rFail2},
           Except.error (-12))
        else
          let r4 : SnapRealm := {r3 with prior_parent_snaps := enc.prior_parent_snaps}
          ({st4 with snap_realms := aset st4.snap_realms enc.ino r4}, Except.ok 1)
    else if r1.cached_context = none then (st4, Except.ok 1)
    else (st4, Except.ok inv1)

/-- Second half of the per-realm body: adjust the parent, then copy the
realm fields.  Returns the new invalidate counter or an error. -/
def itemUpdatePhase (o : AllocOracle) (fuel : Nat) (enc : MdsSnapRealmEnc)
    (st : Mdsc) (inv : Nat) : Mdsc × Except Int Nat :=
  match adjust_snap_realm_parent o fuel st.snap_realms enc.ino enc.parent with
  | (m4e, Except.error e) => ({st with snap_realms := m4e}, Except.error e)
  | (m4, Except.ok adj) =>
    itemFieldsUpdate o enc {st with snap_realms := m4} (inv + adj)

/-- Process one encoded realm of a snap trace (the body of the more loop
of ceph_update_snap_trace): the cap-snap queue phase runs strictly before
the realm update phase. -/
def updateSnapTraceItem (o : AllocOracle) (fuel : Nat) (deletion : Bool)
    (enc : MdsSnapRealmEnc) (isFirst : Bool) (st : Mdsc) (inv : Nat) :
    Mdsc × Except Int Nat :=
  match itemQueuePhase o deletion enc isFirst st with
  | (st3, Except.error e) => (st3, Except.error e)
  | (st3, Except.ok _) => itemUpdatePhase o fuel enc st3 inv

/-- The decode-and-apply loop of ceph_update_snap_trace.  The byte buffer
is abstracted as the list of realm records it decodes to, plus a flag
telling whether trailing bytes remain that fail to decode; reaching the
end of the list with the flag set models ceph_decode_need failing, and an
empty buffer fails the very first decode.  After the item whose record
ends exactly at the buffer end, the realm hierarchy is rebuilt downward
from it when anything was invalidated. -/
def ustLoop (o : AllocOracle) (fuel : Nat) (deletion : Bool) :
    List MdsSnapRealmEnc → Bool → Mdsc → Option Nat → Nat → Mdsc × Except Int Nat
  | [], _, st, none, _ => (st, Except.error (-22))
  | [], true, st, some _, _ => (st, Except.error (-22))
  | [], false, st, some f, _ => (st, Except.ok f)
  | enc :: rest, truncated, st, first, inv =>
    match updateSnapTraceItem o fuel deletion enc first.isNone st inv with
    | (st1, Except.error e) => (st1, Except.error e)
    | (st1, Except.ok inv1) =>
      let st2 :=
        if rest.isEmpty && !truncated && decide (inv1 ≠ 0) then
          {st1 with snap_realms := rebuild_snap_realms o fuel st1.snap_realms enc.ino}
        else st1
      let st3 : Mdsc :=
        {st2 with snap_realms := ceph_put_snap_realm fuel st2.snap_realms enc.ino}
      ustLoop o fuel deletion rest truncated st3 (some (first.getD enc.ino)) inv1

/-- Parse and apply a snap trace (ceph_update_snap_trace).  Returns the
first (most deeply nested) realm of the trace with a bumped reference, or
an error; on error the state reflects everything applied before the
failure point. -/
def ceph_update_snap_trace (o : AllocOracle) (fuel : Nat) (st : Mdsc)
    (trace : List MdsSnapRealmEnc) (truncated : Bool) (deletion : Bool) :
    Mdsc × Except Int Nat :=
  ustLoop o fuel deletion trace truncated st none 0

/-- A snap message body as decoded by ceph_handle_snap: the op and split
ino of the head, the two split arrays, and the embedded trace with its
truncation flag.  A message whose front is too short for the head at all
is modelled by body = none on the message. -/
structure SnapMsgBody where
  op : Nat
  split : Nat
  split_inos : List Nat
  split_realms : List Nat
  trace : List MdsSnapRealmEnc
  truncated : Bool
deriving Repr, DecidableEq

/-- An incoming message, reduced to the header fields ceph_handle_snap
reads and the decoded body. -/
structure CephMsg where
  src_type : Nat
  src_num : Nat
  body : Option SnapMsgBody
deriving Repr, DecidableEq

/-- First pass of a split over one listed inode: absent inodes and inodes
without a realm are skipped, an inode whose realm was created after the
new realm is left in place (stale notification), and any other inode is
unhooked from its realm's inode list and gets a cap-snap queued under
that realm's old cached context.  Reattachment is deferred. -/
def splitPhase1Inode (o : AllocOracle) (newCreated : Nat) (st : Mdsc) (i : Nat) :
    Mdsc :=
  match alookup st.inodes i with
  | none => st
  | some ci =>
    match ci.i_snap_realm with
    | none => st
    | some rIno =>
      match alookup st.snap_realms rIno with
      | none => st
      | some r =>
        if decide (newCreated < r.created) then st
        else
          let rDetached : SnapRealm := {r with inodes_with_caps := r.inodes_with_caps.erase i}
          let st1 : Mdsc := {st with snap_realms := aset st.snap_realms rIno rDetached}
          queueWithCtx o st1 i r.cached_context

/-- Reparent one listed child realm to the split realm; errors looking up
the child are skipped, the adjust result is ignored. -/
def splitChildRealm (o : AllocOracle) (fuel : Nat) (parentIno : Nat)
    (m : RealmMap) (childIno : Nat) : RealmMap :=
  match ceph_get_snap_realm o m childIno with
  | (_, Except.error _) => m
  | (m1, Except.ok _) =>
    let m2 := (adjust_snap_realm_parent o fuel m1 childIno parentIno).1
    ceph_put_snap_realm fuel m2 childIno

/-- Second pass of a split over one listed inode, run after the trace has
been applied: drop the reference on the inode's old realm and attach the
inode to the realm returned by the trace update.  The C code runs this
for every listed inode, including the ones phase one skipped. -/
def splitPhase2Inode (fuel : Nat) (newIno : Nat) (st : Mdsc) (i : Nat) : Mdsc :=
  match alookup st.inodes i with
  | none => st
  | some ci =>
    let st1 : Mdsc :=
      match ci.i_snap_realm with
      | some old => {st with snap_realms := ceph_put_snap_realm fuel st.snap_realms old}
      | none => st
    match alookup st1.snap_realms newIno, alookup st1.inodes i with
    | some nr, some ci1 =>
      let nr1 : SnapRealm :=
        {nr with inodes_with_caps := i :: nr.inodes_with_caps, nref := nr.nref + 1}
      let st2 : Mdsc := {st1 with snap_realms := aset st1.snap_realms newIno nr1}
      let ci2 : CephInode := {ci1 with i_snap_realm := some newIno}
      {st2 with inodes := aset st2.inodes i ci2}
    | _, _ => st1

/-- Modelled from the spec: flush_snaps drains the process-wide snap
flush list, sending each flushable cap-snap to the mds session
(__ceph_flush_snaps lives in caps.c, which is not in the sources); the
sends are network output, so on the modelled state draining empties the
list. -/
def flush_snaps (st : Mdsc) : Mdsc :=
  {st with snap_flush_list := []}

/-- In a split, the work done before the embedded trace is applied:
install the realm map returned by the get on the split realm, run phase
one over the listed inodes, and reparent the listed child realms. -/
def splitPrepare (o : AllocOracle) (fuel : Nat) (b : SnapMsgBody) (created : Nat)
    (m1 : RealmMap) (st0 : Mdsc) : Mdsc :=
  let st1 : Mdsc := {st0 with snap_realms := m1}
  let st2 := List.foldl (splitPhase1Inode o created) st1 b.split_inos
  let mChild :=
    List.foldl (splitChildRealm o fuel b.split) st2.snap_realms b.split_realms
  {st2 with snap_realms := mChild}

/-- The tail of a split after the trace has been applied: a failed trace
drops the rest of the message; otherwise the listed inodes are attached
to the realm the trace returned, which then receives the two final
reference drops the C code performs, and the flush list is drained. -/
def traceFinishSplit (fuel : Nat) (b : SnapMsgBody)
    (p : Mdsc × Except Int Nat) : Mdsc :=
  match p with
  | (st4, Except.error _) => st4
  | (st4, Except.ok firstIno) =>
    let st5 := List.foldl (splitPhase2Inode fuel firstIno) st4 b.split_inos
    let st6 : Mdsc :=
      {st5 with snap_realms := ceph_put_snap_realm fuel st5.snap_realms firstIno}
    let st7 : Mdsc :=
      {st6 with snap_realms := ceph_put_snap_realm fuel st6.snap_realms firstIno}
    flush_snaps st7

/-- The tail of a non-split operation after the trace has been applied: a
failed trace drops the rest of the message; otherwise the reference on the
returned realm is dropped and the flush list is drained. -/
def traceFinishPlain (fuel : Nat) (p : Mdsc × Except Int Nat) : Mdsc :=
  match p with
  | (st4, Except.error _) => st4
  | (st4, Except.ok firstIno) =>
    flush_snaps
      {st4 with snap_realms := ceph_put_snap_realm fuel st4.snap_realms firstIno}

/-- The body of ceph_handle_snap after the session seq bump, dispatching
on the operation. -/
def handleSnapOps (o : AllocOracle) (fuel : Nat) (b : SnapMsgBody) (st0 : Mdsc) :
    Mdsc :=
  if b.op = CEPH_SNAP_OP_SPLIT then
    match b.trace with
    | [] => st0
    | ri :: _ =>
      match ceph_get_snap_realm o st0.snap_realms b.split with
      | (_, Except.error _) => st0
      | (m1, Except.ok _) =>
        traceFinishSplit fuel b
          (ceph_update_snap_trace o fuel (splitPrepare o fuel b ri.created m1 st0)
            b.trace b.truncated (decide (b.op = CEPH_SNAP_OP_DESTROY)))
  else
    traceFinishPlain fuel
      (ceph_update_snap_trace o fuel st0 b.trace b.truncated
        (decide (b.op = CEPH_SNAP_OP_DESTROY)))

/-- Handle a snap notification (ceph_handle_snap).  Non-mds messages are
ignored outright.  A message too short for its head, or one whose split
payload does not decode, is dropped after the session seq bump.  For a
split, phase one detaches and snapshots the listed inodes and the listed
child realms are reparented; then the embedded trace is applied (a failed
trace drops the rest of the message); for a split the listed inodes are
then attached to the realm the trace returned, which receives the two
final reference drops the C code performs.  Only the success path drains
the flush list. -/
def ceph_handle_snap (o : AllocOracle) (fuel : Nat) (st : Mdsc) (msg : CephMsg) :
    Mdsc :=
  if msg.src_type ≠ CEPH_ENTITY_TYPE_MDS then st
  else
    match msg.body with
    | none => st
    | some b =>
      match alookup st.sessions msg.src_num with
      | none => st
      | some sq =>
        handleSnapOps o fuel b
          {st with sessions := aset st.sessions msg.src_num (sq + 1)}

/-! Basic lemmas about the keyed-list operations. -/

theorem alookup_aset {α : Type} (l : List (Nat × α)) (k j : Nat) (v : α) :
    alookup (aset l k v) j =
      if j = k then (alookup l k).map (fun _ => v) else alookup l j := by
  induction l with
  | nil => simp [alookup, aset]
  | cons hd tl ih =>
    obtain ⟨a, b⟩ := hd
    by_cases hak : a = k
    · subst hak
      by_cases hja : j = a <;> simp [alookup, aset, hja, ih]
    · have hka : ¬ k = a := fun h => hak h.symm
      by_cases hja : j = a
      · subst hja
        simp [alookup, aset, hak, hka]
      · simp [alookup, aset, hak, hja, ih, hka]

theorem alookup_aset_self {α : Type} (l : List (Nat × α)) (k : Nat) (v w : α)
    (h : alookup l k = some w) : alookup (aset l k v) k = some v := by
  rw [alookup_aset, if_pos rfl, h]
  rfl

theorem alookup_aset_ne {α : Type} (l : List (Nat × α)) (k j : Nat) (v : α)
    (h : j ≠ k) : alookup (aset l k v) j = alookup l j := by
  rw [alookup_aset, if_neg h]

theorem alookup_aerase {α : Type} (l : List (Nat × α)) (k j : Nat) :
    alookup (aerase l k) j = if j = k then none else alookup l j := by
  induction l with
  | nil => simp [alookup, aerase]
  | cons hd tl ih =>
    obtain ⟨a, b⟩ := hd
    by_cases hak : a = k
    · subst hak
      by_cases hja : j = a
      · subst hja
        simp [alookup, aerase, ih]
      · simp [alookup, aerase, hja, ih]
    · have hka : ¬ k = a := fun h => hak h.symm
      by_cases hja : j = a
      · subst hja
        simp [alookup, aerase, hak, hka, ih]
      · simp [alookup, aerase, hak, hja, ih]

/-! Lemmas about the reverse sort. -/

theorem sortRev_sorted (l : List Nat) :
    List.Sorted (fun a b : Nat => a ≥ b) (sortRev l) :=
  List.sorted_insertionSort (fun a b : Nat => a ≥ b) l

theorem sortRev_perm (l : List Nat) : (sortRev l).Perm l :=
  List.perm_insertionSort (fun a b : Nat => a ≥ b) l

/-! Claim C1: the derived snap context. -/

/-- Mirrors the words of the specification for the context-derivation
rule: the duplicate-free reverse-sorted union of the inherited parent
entries, the realm's own snaps and the prior parent snaps.  Stated from
the spec only, to be compared against the context the code computes. -/
def dedupSorted : List Nat → List Nat
  | [] => []
  | [x] => [x]
  | x :: y :: t => if x = y then dedupSorted (y :: t) else x :: dedupSorted (y :: t)

/-- Duplicate-free reverse-sorted union named by the spec sentence of
claim C1. -/
def specDedupRevUnion (parentSnaps : List Nat) (since : Nat)
    (own prior : List Nat) : List Nat :=
  dedupSorted (sortRev (parentSnaps.filter (fun s => decide (since ≤ s)) ++ own ++ prior))

/-- Realm with every field zero except the key, as kzalloc leaves it with
one reference taken. -/
def rlm (i : Nat) : SnapRealm := ⟨i, 1, 0, 0, 0, none, 0, [], [], none, [], []⟩

/-- Realm 1 carries snap id 3 both in its own snaps and in its prior
parent snaps. -/
def stC1 : RealmMap :=
  [(1, {rlm 1 with seq := 5, snaps := [3], prior_parent_snaps := [3]})]

/-- Claim C1, counterexample: build_snap_context performs no
deduplication.  On a rootless realm whose own snaps and prior parent
snaps both contain snap id 3, the rebuild succeeds and caches the snap
vector [3, 3], while the duplicate-free reverse-sorted union the claim
prescribes is [3]. -/
theorem build_snap_context_no_dedup_counterexample :
    (build_snap_context oAll 2 stC1 1).2 = 0 ∧
    ((alookup (build_snap_context oAll 2 stC1 1).1 1).bind
      (fun r => r.cached_context)).map (fun c => c.snaps) = some [3, 3] ∧
    specDedupRevUnion [] 0 [3] [3] = [3] ∧
    (some [3, 3] : Option (List Nat)) ≠ some [3] := by
  refine ⟨rfl, rfl, rfl, by decide⟩

/-- Claim C1, amended: after a rebuild that actually reconstructs the
context (parent context present when a parent exists, the unchanged
short-circuit failing, allocation succeeding), the cached snap vector is
the reverse-sorted concatenation - duplicates preserved - of the parent
entries at or after parent_since, the realm's own snaps and its prior
parent snaps, and the cached seq is max(realm.seq, parent context seq),
or realm.seq for a rootless realm. -/
theorem build_snap_context_rebuild_spec
    (o : AllocOracle) (fuel : Nat) (m : RealmMap) (ino : Nat) (r : SnapRealm)
    (h1 : alookup m ino = some r)
    (h2 : ∀ p, r.parent = some p →
      ∃ pr c, alookup m p = some pr ∧ pr.cached_context = some c)
    (h3 : buildUnchanged r (parentCtx m r) = false)
    (h4 : o.ctxOk ino = true) :
    ∃ c : SnapContext,
      build_snap_context o (fuel + 1) m ino =
        (aset m ino {r with cached_context := some c}, 0) ∧
      List.Sorted (fun a b : Nat => a ≥ b) c.snaps ∧
      c.snaps.Perm (parentEntriesSince (parentCtx m r) r.parent_since ++
                    r.snaps ++ r.prior_parent_snaps) ∧
      c.seq = (match parentCtx m r with
               | some q => max r.seq q.seq
               | none => r.seq) := by
  have hbuilt :
      (match r.parent with
        | some p =>
          match alookup m p with
          | none => (m, (-14 : Int))
          | some pr =>
            if pr.cached_context = none then build_snap_context o fuel m p
            else (m, 0)
        | none => (m, 0)) = (m, (0 : Int)) := by
    cases hp : r.parent with
    | none => rfl
    | some p =>
      obtain ⟨pr, c, hpr, hc⟩ := h2 p hp
      show (match alookup m p with
            | none => (m, (-14 : Int))
            | some pr =>
              if pr.cached_context = none then build_snap_context o fuel m p
              else (m, 0)) = (m, (0 : Int))
      rw [hpr]
      show (if pr.cached_context = none then build_snap_context o fuel m p
            else (m, 0)) = (m, (0 : Int))
      rw [hc]
      simp
  refine ⟨⟨(match parentCtx m r with
            | some q => if r.seq < q.seq then q.seq else r.seq
            | none => r.seq),
          sortRev (parentEntriesSince (parentCtx m r) r.parent_since ++
                   r.snaps ++ r.prior_parent_snaps)⟩, ?_, ?_, ?_, ?_⟩
  · rw [build_snap_context]
    rw [h1]
    simp only [hbuilt, h1, h3, h4]
    simp
  · exact sortRev_sorted _
  · exact sortRev_perm _
  · cases hq : parentCtx m r with
    | none => rfl
    | some q =>
      show (if r.seq < q.seq then q.seq else r.seq) = max r.seq q.seq
      by_cases h : r.seq < q.seq
      · rw [if_pos h, Nat.max_eq_right (Nat.le_of_lt h)]
      · rw [if_neg h, Nat.max_eq_left (Nat.le_of_not_lt h)]

/-- Realm 7 for the rebuild witness: parent realm 8 with a built context. -/
def rC1w : SnapRealm :=
  {rlm 7 with parent := some 8, parent_ino := 8, parent_since := 5, seq := 4,
              snaps := [6, 2], prior_parent_snaps := [9]}

/-- Index holding realm 7 under parent realm 8. -/
def stC1w : RealmMap :=
  [(7, rC1w), (8, {rlm 8 with seq := 6, cached_context := some ⟨6, [10, 1]⟩})]

/-- Witness for the amended claim C1 at a concrete two-realm chain. -/
theorem build_snap_context_rebuild_spec_witness :
    alookup stC1w 7 = some rC1w ∧
    buildUnchanged rC1w (parentCtx stC1w rC1w) = false ∧
    oAll.ctxOk 7 = true ∧
    (∃ c : SnapContext,
      build_snap_context oAll 1 stC1w 7 =
        (aset stC1w 7 {rC1w with cached_context := some c}, 0) ∧
      List.Sorted (fun a b : Nat => a ≥ b) c.snaps ∧
      c.snaps.Perm (parentEntriesSince (parentCtx stC1w rC1w) rC1w.parent_since ++
                    rC1w.snaps ++ rC1w.prior_parent_snaps) ∧
      c.seq = (match parentCtx stC1w rC1w with
               | some q => max rC1w.seq q.seq
               | none => rC1w.seq)) :=
  ⟨rfl, rfl, rfl,
   build_snap_context_rebuild_spec oAll 0 stC1w 7 rC1w rfl
     (by
       intro p hp
       have hp8 : p = 8 := by
         have : (some 8 : Option Nat) = some p := hp
         injection this with h
         exact h.symm
       subst hp8
       exact ⟨{rlm 8 with seq := 6, cached_context := some ⟨6, [10, 1]⟩},
              ⟨6, [10, 1]⟩, rfl, rfl⟩)
     rfl rfl⟩

/-! Claim C2: finalizing a cap-snap. -/

/-- Claim C2, counterexample: the C code asserts BUG_ON(capsnap->writing),
so on a cap-snap with writing true the assertion fires (modelled as the
none result); the claim states the opposite precondition. -/
theorem finish_cap_snap_assert_counterexample :
    ceph_finish_cap_snap ⟨[], [], [], []⟩ 0
      ⟨0, ⟨0, []⟩, 0, 0, 0, 0, 0, 0, 0, true⟩ = none := rfl

/-- Claim C2, amended: __ceph_finish_cap_snap may only be called on a
cap-snap with writing == false (its callers clear writing first), and
under that precondition the BUG_ON does not fire; it captures the final
size, mtime, atime, ctime and time_warp_seq from the inode, keeps the
cap-snap pending and returns 0 when dirty > 0, and appends the inode to
the process-wide snap flush list and returns 1 when dirty == 0. -/
theorem finish_cap_snap_spec (st : Mdsc) (i : Nat) (ci : CephInode) (cs : CapSnap)
    (hci : alookup st.inodes i = some ci) (hw : cs.writing = false) :
    ∃ st1 cs1 rv,
      ceph_finish_cap_snap st i cs = some (st1, cs1, rv) ∧
      cs1.size = ci.i_size ∧ cs1.mtime = ci.i_mtime ∧ cs1.atime = ci.i_atime ∧
      cs1.ctime = ci.i_ctime ∧ cs1.time_warp_seq = ci.i_time_warp_seq ∧
      cs1.dirty = cs.dirty ∧ cs1.writing = false ∧
      (0 < cs.dirty → rv = 0 ∧ st1 = st) ∧
      (cs.dirty = 0 → rv = 1 ∧
        st1 = {st with snap_flush_list := st.snap_flush_list ++ [i]}) := by
  rw [ceph_finish_cap_snap, hw]
  simp only [Bool.false_eq_true, if_false]
  rw [hci]
  by_cases hd : 0 < cs.dirty
  · refine ⟨st,
      {cs with size := ci.i_size, mtime := ci.i_mtime, atime := ci.i_atime,
               ctime := ci.i_ctime, time_warp_seq := ci.i_time_warp_seq},
      0, ?_, rfl, rfl, rfl, rfl, rfl, rfl, hw, fun _ => ⟨rfl, rfl⟩,
      fun h0 => absurd h0 (by omega)⟩
    simp [hd, hw]
  · have h0 : cs.dirty = 0 := by omega
    refine ⟨{st with snap_flush_list := st.snap_flush_list ++ [i]},
      {cs with size := ci.i_size, mtime := ci.i_mtime, atime := ci.i_atime,
               ctime := ci.i_ctime, time_warp_seq := ci.i_time_warp_seq},
      1, ?_, rfl, rfl, rfl, rfl, rfl, rfl, hw, fun hlt => absurd hlt (by omega),
      fun _ => ⟨rfl, rfl⟩⟩
    simp [h0, hw]

/-- Witness for the amended claim C2: a clean cap-snap on a one-inode
state lands the inode on the flush list with return value 1. -/
theorem finish_cap_snap_spec_witness :
    alookup (Mdsc.mk [] [] [(5, ⟨11, 12, 13, 14, 15, 0, 0, 0, [], none⟩)] []).inodes 5 =
      some ⟨11, 12, 13, 14, 15, 0, 0, 0, [], none⟩ ∧
    (⟨9, ⟨3, [2]⟩, 0, 0, 0, 0, 0, 0, 0, false⟩ : CapSnap).writing = false ∧
    (∃ st1 cs1 rv,
      ceph_finish_cap_snap (Mdsc.mk [] [] [(5, ⟨11, 12, 13, 14, 15, 0, 0, 0, [], none⟩)] []) 5
          ⟨9, ⟨3, [2]⟩, 0, 0, 0, 0, 0, 0, 0, false⟩ = some (st1, cs1, rv) ∧
      cs1.size = 11 ∧ cs1.mtime = 12 ∧ cs1.atime = 13 ∧
      cs1.ctime = 14 ∧ cs1.time_warp_seq = 15 ∧
      cs1.dirty = 0 ∧ cs1.writing = false ∧
      (0 < (0 : Nat) → rv = 0 ∧ st1 = Mdsc.mk [] [] [(5, ⟨11, 12, 13, 14, 15, 0, 0, 0, [], none⟩)] []) ∧
      ((0 : Nat) = 0 → rv = 1 ∧
        st1 = Mdsc.mk [] [5] [(5, ⟨11, 12, 13, 14, 15, 0, 0, 0, [], none⟩)] [])) :=
  ⟨rfl, rfl,
   finish_cap_snap_spec (Mdsc.mk [] [] [(5, ⟨11, 12, 13, 14, 15, 0, 0, 0, [], none⟩)] []) 5
     ⟨11, 12, 13, 14, 15, 0, 0, 0, [], none⟩
     ⟨9, ⟨3, [2]⟩, 0, 0, 0, 0, 0, 0, 0, false⟩ rfl rfl⟩

/-! Claim C10: non-mds messages are ignored. -/

/-- Claim C10: a message whose source entity type is not MDS makes
ceph_handle_snap return immediately, leaving the whole state - realm
forest, cap-snap lists, flush list, sessions - unchanged. -/
theorem handle_snap_non_mds_noop (o : AllocOracle) (fuel : Nat) (st : Mdsc)
    (msg : CephMsg) (h : msg.src_type ≠ CEPH_ENTITY_TYPE_MDS) :
    ceph_handle_snap o fuel st msg = st := by
  rw [ceph_handle_snap, if_pos h]

/-- Witness for claim C10: an osd-sourced message is dropped without any
state change. -/
theorem handle_snap_non_mds_noop_witness :
    (CephMsg.mk 3 0 none).src_type ≠ CEPH_ENTITY_TYPE_MDS ∧
    ceph_handle_snap oAll 5 (Mdsc.mk stC1w [] [] [(0, 7)]) (CephMsg.mk 3 0 none) =
      Mdsc.mk stC1w [] [] [(0, 7)] :=
  ⟨by decide, handle_snap_non_mds_noop oAll 5 (Mdsc.mk stC1w [] [] [(0, 7)])
    (CephMsg.mk 3 0 none) (by decide)⟩

/-! Claim C7: realm teardown on the last reference drop. -/

/-- One unfolding step of ceph_put_snap_realm at a present key. -/
theorem put_snap_realm_step (fuel : Nat) (m : RealmMap) (ino : Nat) (r : SnapRealm)
    (hr : alookup m ino = some r) :
    ceph_put_snap_realm (fuel + 1) m ino =
      (if r.nref - 1 = 0 then
        aerase
          (match ({r with nref := r.nref - 1} : SnapRealm).parent with
           | some p =>
             ceph_put_snap_realm fuel
               (match alookup (aset m ino {r with nref := r.nref - 1}) p with
                | some pr =>
                  aset (aset m ino {r with nref := r.nref - 1}) p
                    {pr with children := pr.children.erase ino}
                | none => aset m ino {r with nref := r.nref - 1}) p
           | none => aset m ino {r with nref := r.nref - 1}) ino
      else aset m ino {r with nref := r.nref - 1}) := by
  rw [ceph_put_snap_realm, hr]

/-- Step lemma with the parent option abstracted, so that uses can
supply the realm's parent by hypothesis. -/
theorem put_snap_realm_step2 (fuel : Nat) (m : RealmMap) (ino : Nat)
    (r : SnapRealm) (po : Option Nat)
    (hr : alookup m ino = some r) (hp : r.parent = po) :
    ceph_put_snap_realm (fuel + 1) m ino =
      (if r.nref - 1 = 0 then
        aerase
          (match po with
           | some p =>
             ceph_put_snap_realm fuel
               (match alookup (aset m ino {r with nref := r.nref - 1}) p with
                | some pr =>
                  aset (aset m ino {r with nref := r.nref - 1}) p
                    {pr with children := pr.children.erase ino}
                | none => aset m ino {r with nref := r.nref - 1}) p
           | none => aset m ino {r with nref := r.nref - 1}) ino
      else aset m ino {r with nref := r.nref - 1}) := by
  subst hp
  exact put_snap_realm_step fuel m ino r hr

/-- Claim C7: dropping the last reference removes the realm from the
index, unhooks it from its former parent's child list and releases one
reference on that parent; a realm whose count stays positive remains in
the index with only its count changed. -/
theorem put_snap_realm_spec (f : Nat) (m : RealmMap) (ino : Nat) (r : SnapRealm)
    (hr : alookup m ino = some r) :
    (2 ≤ r.nref →
      ceph_put_snap_realm (f + 2) m ino = aset m ino {r with nref := r.nref - 1} ∧
      alookup (ceph_put_snap_realm (f + 2) m ino) ino =
        some {r with nref := r.nref - 1}) ∧
    (r.nref = 1 →
      alookup (ceph_put_snap_realm (f + 2) m ino) ino = none ∧
      (∀ p pr, r.parent = some p → p ≠ ino → alookup m p = some pr →
        2 ≤ pr.nref → pr.children.count ino ≤ 1 →
        ∃ pr', alookup (ceph_put_snap_realm (f + 2) m ino) p = some pr' ∧
          pr'.nref = pr.nref - 1 ∧ ino ∉ pr'.children)) := by
  constructor
  · intro h2
    have hne : ¬ (r.nref - 1 = 0) := by omega
    have heq := put_snap_realm_step (f + 1) m ino r hr
    rw [if_neg hne] at heq
    exact ⟨heq, by rw [heq]; exact alookup_aset_self m ino _ r hr⟩
  · intro h1
    have hz : r.nref - 1 = 0 := by omega
    constructor
    · have heq := put_snap_realm_step (f + 1) m ino r hr
      rw [if_pos hz] at heq
      rw [heq, alookup_aerase, if_pos rfl]
    · intro p pr hp hpne hpr hpr2 hcnt
      have h := put_snap_realm_step2 (f + 1) m ino r (some p) hr hp
      rw [if_pos hz] at h
      have hlk1 : alookup (aset m ino {r with nref := r.nref - 1}) p =
          some pr := by
        rw [alookup_aset_ne _ _ _ _ hpne]
        exact hpr
      have h2 : ceph_put_snap_realm (f + 2) m ino =
          aerase (ceph_put_snap_realm (f + 1)
            (aset (aset m ino {r with nref := r.nref - 1}) p
              {pr with children := pr.children.erase ino}) p) ino := by
        refine h.trans ?_
        show aerase (ceph_put_snap_realm (f + 1)
          (match alookup (aset m ino {r with nref := r.nref - 1}) p with
           | some pr =>
             aset (aset m ino {r with nref := r.nref - 1}) p
               {pr with children := pr.children.erase ino}
           | none => aset m ino {r with nref := r.nref - 1}) p) ino = _
        rw [hlk1]
      have hlk2 : alookup
          (aset (aset m ino {r with nref := r.nref - 1}) p
            {pr with children := pr.children.erase ino}) p =
          some {pr with children := pr.children.erase ino} :=
        alookup_aset_self _ _ _ _ hlk1
      have hne2 : ¬ (({pr with children := pr.children.erase ino} : SnapRealm).nref - 1 = 0) := by
        show ¬ (pr.nref - 1 = 0)
        omega
      have h3 := put_snap_realm_step f _ p _ hlk2
      rw [if_neg hne2] at h3
      rw [h3] at h2
      refine ⟨{pr with children := pr.children.erase ino, nref := pr.nref - 1}, ?_, rfl, ?_⟩
      · rw [h2, alookup_aerase, if_neg hpne]
        exact alookup_aset_self _ _ _ _ hlk2
      · have hc := List.count_erase_self ino pr.children
        have hc0 : pr.children.count ino - 1 = 0 := by omega
        rw [hc0] at hc
        exact List.count_eq_zero.mp hc

/-- Realm 1 for the teardown witness, child of realm 2. -/
def rC7 : SnapRealm := {rlm 1 with parent := some 2, parent_ino := 2}

/-- Index holding realm 1 (one reference) under realm 2 (two references,
child list [1]). -/
def stC7 : RealmMap := [(1, rC7), (2, {rlm 2 with nref := 2, children := [1]})]

/-- Witness for claim C7 at a concrete two-realm chain. -/
theorem put_snap_realm_spec_witness :
    alookup stC7 1 = some rC7 ∧
    ((2 ≤ rC7.nref →
      ceph_put_snap_realm 2 stC7 1 = aset stC7 1 {rC7 with nref := rC7.nref - 1} ∧
      alookup (ceph_put_snap_realm 2 stC7 1) 1 = some {rC7 with nref := rC7.nref - 1}) ∧
    (rC7.nref = 1 →
      alookup (ceph_put_snap_realm 2 stC7 1) 1 = none ∧
      (∀ p pr, rC7.parent = some p → p ≠ 1 → alookup stC7 p = some pr →
        2 ≤ pr.nref → pr.children.count 1 ≤ 1 →
        ∃ pr', alookup (ceph_put_snap_realm 2 stC7 1) p = some pr' ∧
          pr'.nref = pr.nref - 1 ∧ 1 ∉ pr'.children))) :=
  ⟨rfl, put_snap_realm_spec 0 stC7 1 rC7 rfl⟩

/-! Cap-snap queuing: shared characterization. -/

/-- Number of pending (writing) cap-snaps in a list. -/
def countWriting (l : List CapSnap) : Nat :=
  (l.filter (fun cs => cs.writing)).length

theorem countWriting_append (l1 l2 : List CapSnap) :
    countWriting (l1 ++ l2) = countWriting l1 + countWriting l2 := by
  simp [countWriting, List.filter_append]

theorem countWriting_zero_of_noPending (l : List CapSnap)
    (h : l.any (fun cs => cs.writing) = false) : countWriting l = 0 := by
  induction l with
  | nil => rfl
  | cons hd tl ih =>
    simp only [List.any_cons, Bool.or_eq_false_iff] at h
    have h2 := ih h.2
    simp only [countWriting, List.filter_cons, h.1] at h2 ⊢
    simpa using h2

/-- One unfolding of ceph_finish_cap_snap on a non-writing cap-snap at a
present inode. -/
theorem finish_cap_snap_step (st : Mdsc) (i : Nat) (ci : CephInode) (cs : CapSnap)
    (hci : alookup st.inodes i = some ci) (hw : cs.writing = false) :
    ceph_finish_cap_snap st i cs =
      (if 0 < cs.dirty then
        some (st,
          {cs with size := ci.i_size, mtime := ci.i_mtime, atime := ci.i_atime,
                   ctime := ci.i_ctime, time_warp_seq := ci.i_time_warp_seq}, 0)
      else
        some ({st with snap_flush_list := st.snap_flush_list ++ [i]},
          {cs with size := ci.i_size, mtime := ci.i_mtime, atime := ci.i_atime,
                   ctime := ci.i_ctime, time_warp_seq := ci.i_time_warp_seq}, 1)) := by
  rw [ceph_finish_cap_snap, hw]
  simp only [Bool.false_eq_true, if_false]
  rw [hci]

/-- What ceph_queue_cap_snap does on an inode with no pending cap-snap
and a successful allocation: one cap-snap is appended, capturing the
context, follows = seq - 1 in u64 arithmetic, the issued capabilities and
the transferred head dirty-page counter; the realm index and sessions are
untouched. -/
theorem queue_cap_snap_no_pending (o : AllocOracle) (st : Mdsc) (i : Nat)
    (snapc : SnapContext) (ci : CephInode)
    (hci : alookup st.inodes i = some ci) (hok : o.capsnapOk i = true)
    (hnp : havePending ci = false) :
    ∃ cs : CapSnap,
      (ceph_queue_cap_snap o st i snapc).inodes =
        aset st.inodes i
          {ci with i_wrbuffer_ref_head := 0, i_cap_snaps := ci.i_cap_snaps ++ [cs]} ∧
      (ceph_queue_cap_snap o st i snapc).snap_realms = st.snap_realms ∧
      (ceph_queue_cap_snap o st i snapc).sessions = st.sessions ∧
      cs.context = snapc ∧ cs.follows = (snapc.seq + (U64 - 1)) % U64 ∧
      cs.issued = ci.caps_issued ∧ cs.dirty = ci.i_wrbuffer_ref_head ∧
      (ci.caps_used &&& CEPH_CAP_WR = 0 →
        cs.writing = false ∧ cs.size = ci.i_size ∧ cs.mtime = ci.i_mtime ∧
        cs.atime = ci.i_atime ∧ cs.ctime = ci.i_ctime ∧
        cs.time_warp_seq = ci.i_time_warp_seq) ∧
      (ci.caps_used &&& CEPH_CAP_WR ≠ 0 → cs.writing = true) := by
  rw [ceph_queue_cap_snap, hok, hci]
  simp only [not_true, if_false, hnp, Bool.false_eq_true, ite_false]
  by_cases hwr : ci.caps_used &&& CEPH_CAP_WR = 0
  · rw [if_neg (fun h => h hwr)]
    rw [finish_cap_snap_step st i ci _ hci rfl]
    by_cases hd : (0 :
        Nat) < (⟨(snapc.seq + (U64 - 1)) % U64, snapc, ci.caps_issued,
          0, 0, 0, 0, 0, ci.i_wrbuffer_ref_head, false⟩ : CapSnap).dirty
    · rw [if_pos hd]
      exact ⟨_, rfl, rfl, rfl, rfl, rfl, rfl, rfl,
        fun _ => ⟨rfl, rfl, rfl, rfl, rfl, rfl⟩, fun h => absurd hwr h⟩
    · rw [if_neg hd]
      exact ⟨_, rfl, rfl, rfl, rfl, rfl, rfl, rfl,
        fun _ => ⟨rfl, rfl, rfl, rfl, rfl, rfl⟩, fun h => absurd hwr h⟩
  · rw [if_pos hwr]
    exact ⟨_, rfl, rfl, rfl, rfl, rfl, rfl, rfl,
      fun h0 => absurd h0 hwr, fun _ => rfl⟩

theorem countWriting_singleton_le (cs : CapSnap) : countWriting [cs] ≤ 1 := by
  cases h : cs.writing <;> simp [countWriting, List.filter_cons, h]

/-! Claim C5: at most one pending cap-snap per inode. -/

/-- Claim C5: ceph_queue_cap_snap preserves the invariant that an inode
carries at most one pending (writing) cap-snap, and it adds nothing at
all when a pending cap-snap already exists. -/
theorem queue_cap_snap_single_pending (o : AllocOracle) (st : Mdsc) (i : Nat)
    (snapc : SnapContext) (ci : CephInode)
    (hci : alookup st.inodes i = some ci)
    (hinv : countWriting ci.i_cap_snaps ≤ 1) :
    (∀ ci', alookup (ceph_queue_cap_snap o st i snapc).inodes i = some ci' →
      countWriting ci'.i_cap_snaps ≤ 1) ∧
    (havePending ci = true → ceph_queue_cap_snap o st i snapc = st) := by
  by_cases hok : o.capsnapOk i = true
  · by_cases hnp : havePending ci = true
    · have hq : ceph_queue_cap_snap o st i snapc = st := by
        rw [ceph_queue_cap_snap, hok, hci]
        simp [hnp]
      refine ⟨?_, fun _ => hq⟩
      intro ci' h'
      rw [hq, hci] at h'
      injection h' with h''
      rw [← h'']
      exact hinv
    · have hnp' : havePending ci = false := by
        cases h : havePending ci
        · rfl
        · exact absurd h hnp
      obtain ⟨cs, hio, _, _, _, _, _, _, _, _⟩ :=
        queue_cap_snap_no_pending o st i snapc ci hci hok hnp'
      refine ⟨?_, fun h => absurd h (by rw [hnp']; exact Bool.false_ne_true)⟩
      intro ci' h'
      rw [hio, alookup_aset_self _ _ _ _ hci] at h'
      injection h' with h''
      rw [← h'']
      show countWriting (ci.i_cap_snaps ++ [cs]) ≤ 1
      rw [countWriting_append,
          countWriting_zero_of_noPending ci.i_cap_snaps hnp']
      simpa using countWriting_singleton_le cs
  · have hq : ceph_queue_cap_snap o st i snapc = st := by
      rw [ceph_queue_cap_snap, if_pos hok]
    refine ⟨?_, fun _ => hq⟩
    intro ci' h'
    rw [hq, hci] at h'
    injection h' with h''
    rw [← h'']
    exact hinv

/-- Witness for claim C5 on an inode with an empty cap-snap list. -/
theorem queue_cap_snap_single_pending_witness :
    alookup (Mdsc.mk [] [] [(4, ⟨0, 0, 0, 0, 0, 2, 0, 0, [], none⟩)] []).inodes 4 =
      some ⟨0, 0, 0, 0, 0, 2, 0, 0, [], none⟩ ∧
    countWriting (⟨0, 0, 0, 0, 0, 2, 0, 0, [], none⟩ : CephInode).i_cap_snaps ≤ 1 ∧
    ((∀ ci', alookup (ceph_queue_cap_snap oAll
        (Mdsc.mk [] [] [(4, ⟨0, 0, 0, 0, 0, 2, 0, 0, [], none⟩)] []) 4 ⟨3, [2]⟩).inodes 4 =
          some ci' → countWriting ci'.i_cap_snaps ≤ 1) ∧
     (havePending (⟨0, 0, 0, 0, 0, 2, 0, 0, [], none⟩ : CephInode) = true →
       ceph_queue_cap_snap oAll
         (Mdsc.mk [] [] [(4, ⟨0, 0, 0, 0, 0, 2, 0, 0, [], none⟩)] []) 4 ⟨3, [2]⟩ =
         Mdsc.mk [] [] [(4, ⟨0, 0, 0, 0, 0, 2, 0, 0, [], none⟩)] [])) :=
  ⟨rfl, by decide,
   queue_cap_snap_single_pending oAll
     (Mdsc.mk [] [] [(4, ⟨0, 0, 0, 0, 0, 2, 0, 0, [], none⟩)] []) 4 ⟨3, [2]⟩
     ⟨0, 0, 0, 0, 0, 2, 0, 0, [], none⟩ rfl (by decide)⟩

/-! Claim C6: the shape of a freshly queued cap-snap. -/

theorem u64_pred (s : Nat) (h1 : 1 ≤ s) (h2 : s < U64) :
    (s + (U64 - 1)) % U64 = s - 1 := by
  have hU : U64 = 18446744073709551616 := rfl
  have hs : s + (U64 - 1) = (s - 1) + 1 * U64 := by omega
  rw [hs, Nat.add_mul_mod_self_right]
  exact Nat.mod_eq_of_lt (by omega)

/-- Claim C6: on an inode with no pending cap-snap (and a successful
allocation), the queued cap-snap has follows = context.seq - 1, records
the issued capabilities, takes over the head dirty-page counter (reset to
zero on the inode), and is appended to the inode's cap-snap list; with no
write capability in use it is finalized immediately with writing false,
and with one in use it is left pending with writing true. -/
theorem queue_cap_snap_new_capsnap_spec (o : AllocOracle) (st : Mdsc) (i : Nat)
    (snapc : SnapContext) (ci : CephInode)
    (hci : alookup st.inodes i = some ci) (hok : o.capsnapOk i = true)
    (hnp : havePending ci = false)
    (h1 : 1 ≤ snapc.seq) (h2 : snapc.seq < U64) :
    ∃ cs : CapSnap,
      alookup (ceph_queue_cap_snap o st i snapc).inodes i =
        some {ci with i_wrbuffer_ref_head := 0,
                      i_cap_snaps := ci.i_cap_snaps ++ [cs]} ∧
      cs.follows = snapc.seq - 1 ∧ cs.context = snapc ∧
      cs.issued = ci.caps_issued ∧ cs.dirty = ci.i_wrbuffer_ref_head ∧
      (ci.caps_used &&& CEPH_CAP_WR = 0 → cs.writing = false ∧
        cs.size = ci.i_size ∧ cs.mtime = ci.i_mtime ∧ cs.atime = ci.i_atime ∧
        cs.ctime = ci.i_ctime ∧ cs.time_warp_seq = ci.i_time_warp_seq) ∧
      (ci.caps_used &&& CEPH_CAP_WR ≠ 0 → cs.writing = true) := by
  obtain ⟨cs, hio, _, _, hctx, hfol, hiss, hdirty, hfin, hwr⟩ :=
    queue_cap_snap_no_pending o st i snapc ci hci hok hnp
  refine ⟨cs, ?_, ?_, hctx, hiss, hdirty, hfin, hwr⟩
  · rw [hio]
    exact alookup_aset_self _ _ _ _ hci
  · rw [hfol]
    exact u64_pred snapc.seq h1 h2

/-- Witness for claim C6: a fresh cap-snap on an idle inode (no write
capability in use) with two dirty head pages and context seq 3. -/
theorem queue_cap_snap_new_capsnap_spec_witness :
    alookup (Mdsc.mk [] [] [(4, ⟨7, 8, 9, 10, 11, 2, 0, 5, [], none⟩)] []).inodes 4 =
      some ⟨7, 8, 9, 10, 11, 2, 0, 5, [], none⟩ ∧
    oAll.capsnapOk 4 = true ∧
    havePending (⟨7, 8, 9, 10, 11, 2, 0, 5, [], none⟩ : CephInode) = false ∧
    1 ≤ (⟨3, [2]⟩ : SnapContext).seq ∧ (⟨3, [2]⟩ : SnapContext).seq < U64 ∧
    (∃ cs : CapSnap,
      alookup (ceph_queue_cap_snap oAll
          (Mdsc.mk [] [] [(4, ⟨7, 8, 9, 10, 11, 2, 0, 5, [], none⟩)] []) 4
          ⟨3, [2]⟩).inodes 4 =
        some {(⟨7, 8, 9, 10, 11, 2, 0, 5, [], none⟩ : CephInode) with
                i_wrbuffer_ref_head := 0,
                i_cap_snaps :=
                  (⟨7, 8, 9, 10, 11, 2, 0, 5, [], none⟩ : CephInode).i_cap_snaps ++ [cs]} ∧
      cs.follows = (⟨3, [2]⟩ : SnapContext).seq - 1 ∧ cs.context = ⟨3, [2]⟩ ∧
      cs.issued = (⟨7, 8, 9, 10, 11, 2, 0, 5, [], none⟩ : CephInode).caps_issued ∧
      cs.dirty = (⟨7, 8, 9, 10, 11, 2, 0, 5, [], none⟩ : CephInode).i_wrbuffer_ref_head ∧
      ((⟨7, 8, 9, 10, 11, 2, 0, 5, [], none⟩ : CephInode).caps_used &&& CEPH_CAP_WR = 0 →
        cs.writing = false ∧
        cs.size = (⟨7, 8, 9, 10, 11, 2, 0, 5, [], none⟩ : CephInode).i_size ∧
        cs.mtime = (⟨7, 8, 9, 10, 11, 2, 0, 5, [], none⟩ : CephInode).i_mtime ∧
        cs.atime = (⟨7, 8, 9, 10, 11, 2, 0, 5, [], none⟩ : CephInode).i_atime ∧
        cs.ctime = (⟨7, 8, 9, 10, 11, 2, 0, 5, [], none⟩ : CephInode).i_ctime ∧
        cs.time_warp_seq =
          (⟨7, 8, 9, 10, 11, 2, 0, 5, [], none⟩ : CephInode).i_time_warp_seq) ∧
      ((⟨7, 8, 9, 10, 11, 2, 0, 5, [], none⟩ : CephInode).caps_used &&& CEPH_CAP_WR ≠ 0 →
        cs.writing = true)) :=
  ⟨rfl, rfl, rfl, by decide, by decide,
   queue_cap_snap_new_capsnap_spec oAll
     (Mdsc.mk [] [] [(4, ⟨7, 8, 9, 10, 11, 2, 0, 5, [], none⟩)] []) 4 ⟨3, [2]⟩
     ⟨7, 8, 9, 10, 11, 2, 0, 5, [], none⟩ rfl rfl rfl (by decide) (by decide)⟩

/-! Claim C8: allocation failure while building a context. -/

theorem rebuild_list_nil (o : AllocOracle) (f : Nat) (m : RealmMap) :
    rebuild_list o f m [] = m := by
  cases f <;> rfl

/-- Claim C8: when the snap-context allocation for a realm fails during a
rebuild, the realm's cached context is cleared (left NULL), the realm
stays in the index with every other field intact, no other realm is
touched by the failure, and rebuild_snap_realms carries on with the
realm's children. -/
theorem rebuild_alloc_failure_spec (o : AllocOracle) (f : Nat) (m : RealmMap)
    (ino : Nat) (r : SnapRealm)
    (h1 : alookup m ino = some r)
    (h2 : ∀ p, r.parent = some p →
      ∃ pr c, alookup m p = some pr ∧ pr.cached_context = some c)
    (h3 : buildUnchanged r (parentCtx m r) = false)
    (h4 : o.ctxOk ino = false) :
    build_snap_context o (f + 1) m ino =
      (aset m ino {r with cached_context := none}, -12) ∧
    alookup (aset m ino {r with cached_context := none}) ino =
      some {r with cached_context := none} ∧
    (∀ j, j ≠ ino →
      alookup (aset m ino {r with cached_context := none}) j = alookup m j) ∧
    rebuild_snap_realms o (f + 1) m ino =
      rebuild_list o f (aset m ino {r with cached_context := none}) r.children := by
  have hbuilt :
      (match r.parent with
        | some p =>
          match alookup m p with
          | none => (m, (-14 : Int))
          | some pr =>
            if pr.cached_context = none then build_snap_context o f m p
            else (m, 0)
        | none => (m, 0)) = (m, (0 : Int)) := by
    cases hp : r.parent with
    | none => rfl
    | some p =>
      obtain ⟨pr, c, hpr, hc⟩ := h2 p hp
      show (match alookup m p with
            | none => (m, (-14 : Int))
            | some pr =>
              if pr.cached_context = none then build_snap_context o f m p
              else (m, 0)) = (m, (0 : Int))
      rw [hpr]
      show (if pr.cached_context = none then build_snap_context o f m p
            else (m, 0)) = (m, (0 : Int))
      rw [hc]
      simp
  have hbuild : build_snap_context o (f + 1) m ino =
      (aset m ino {r with cached_context := none}, -12) := by
    rw [build_snap_context]
    rw [h1]
    simp only [hbuilt, h1, h3, h4]
    simp [clearCached, h1]
  refine ⟨hbuild, alookup_aset_self _ _ _ _ h1,
    fun j hj => alookup_aset_ne _ _ _ _ hj, ?_⟩
  rw [rebuild_snap_realms, rebuild_list, rebuild_list_nil]
  simp only [hbuild]
  rw [alookup_aset_self _ _ _ _ h1]

/-- Oracle that fails every snap-context allocation. -/
def oNoCtx : AllocOracle :=
  ⟨fun _ => true, fun _ => false, fun _ => true, fun _ => true, fun _ => true⟩

/-- Realm 1 for the allocation-failure witness, with child realm 2. -/
def rC8 : SnapRealm := {rlm 1 with seq := 3, snaps := [2], children := [2]}

/-- Index for the allocation-failure witness. -/
def stC8 : RealmMap := [(1, rC8), (2, {rlm 2 with parent := some 1, parent_ino := 1})]

/-- Witness for claim C8 on a realm with one child. -/
theorem rebuild_alloc_failure_spec_witness :
    alookup stC8 1 = some rC8 ∧
    buildUnchanged rC8 (parentCtx stC8 rC8) = false ∧
    oNoCtx.ctxOk 1 = false ∧
    (build_snap_context oNoCtx 3 stC8 1 =
      (aset stC8 1 {rC8 with cached_context := none}, -12) ∧
    alookup (aset stC8 1 {rC8 with cached_context := none}) 1 =
      some {rC8 with cached_context := none} ∧
    (∀ j, j ≠ 1 →
      alookup (aset stC8 1 {rC8 with cached_context := none}) j = alookup stC8 j) ∧
    rebuild_snap_realms oNoCtx 3 stC8 1 =
      rebuild_list oNoCtx 2 (aset stC8 1 {rC8 with cached_context := none})
        rC8.children) :=
  ⟨rfl, rfl, rfl,
   rebuild_alloc_failure_spec oNoCtx 2 stC8 1 rC8 rfl
     (by intro p hp; exact absurd hp (by simp [rC8, rlm])) rfl rfl⟩

/-! Frame lemmas: which state components each operation can touch. -/

theorem bool_false_of_ne_true {b : Bool} (h : ¬ b = true) : b = false := by
  cases b
  · rfl
  · exact absurd rfl h

theorem queue_cap_snap_noop_alloc (o : AllocOracle) (st : Mdsc) (i : Nat)
    (snapc : SnapContext) (h : ¬ o.capsnapOk i = true) :
    ceph_queue_cap_snap o st i snapc = st := by
  rw [ceph_queue_cap_snap, if_pos h]

theorem queue_cap_snap_noop_nolookup (o : AllocOracle) (st : Mdsc) (i : Nat)
    (snapc : SnapContext) (hok : o.capsnapOk i = true)
    (h : alookup st.inodes i = none) :
    ceph_queue_cap_snap o st i snapc = st := by
  rw [ceph_queue_cap_snap, hok, h]
  simp

theorem queue_cap_snap_noop_pending (o : AllocOracle) (st : Mdsc) (i : Nat)
    (snapc : SnapContext) (ci : CephInode) (hok : o.capsnapOk i = true)
    (hci : alookup st.inodes i = some ci) (hp : havePending ci = true) :
    ceph_queue_cap_snap o st i snapc = st := by
  rw [ceph_queue_cap_snap, hok, hci]
  simp [hp]

theorem queue_cap_snap_realms (o : AllocOracle) (st : Mdsc) (i : Nat)
    (snapc : SnapContext) :
    (ceph_queue_cap_snap o st i snapc).snap_realms = st.snap_realms := by
  by_cases hok : o.capsnapOk i = true
  · cases hci : alookup st.inodes i with
    | none => rw [queue_cap_snap_noop_nolookup o st i snapc hok hci]
    | some ci =>
      by_cases hnp : havePending ci = true
      · rw [queue_cap_snap_noop_pending o st i snapc ci hok hci hnp]
      · obtain ⟨_, _, hre, _, _, _, _, _, _, _⟩ :=
          queue_cap_snap_no_pending o st i snapc ci hci hok
            (bool_false_of_ne_true hnp)
        exact hre
  · rw [queue_cap_snap_noop_alloc o st i snapc hok]

theorem queue_cap_snap_sessions (o : AllocOracle) (st : Mdsc) (i : Nat)
    (snapc : SnapContext) :
    (ceph_queue_cap_snap o st i snapc).sessions = st.sessions := by
  by_cases hok : o.capsnapOk i = true
  · cases hci : alookup st.inodes i with
    | none => rw [queue_cap_snap_noop_nolookup o st i snapc hok hci]
    | some ci =>
      by_cases hnp : havePending ci = true
      · rw [queue_cap_snap_noop_pending o st i snapc ci hok hci hnp]
      · obtain ⟨_, _, _, hse, _, _, _, _, _, _⟩ :=
          queue_cap_snap_no_pending o st i snapc ci hci hok
            (bool_false_of_ne_true hnp)
        exact hse
  · rw [queue_cap_snap_noop_alloc o st i snapc hok]

theorem queue_cap_snap_inodes_other (o : AllocOracle) (st : Mdsc) (i j : Nat)
    (snapc : SnapContext) (hij : j ≠ i) :
    alookup (ceph_queue_cap_snap o st i snapc).inodes j = alookup st.inodes j := by
  by_cases hok : o.capsnapOk i = true
  · cases hci : alookup st.inodes i with
    | none => rw [queue_cap_snap_noop_nolookup o st i snapc hok hci]
    | some ci =>
      by_cases hnp : havePending ci = true
      · rw [queue_cap_snap_noop_pending o st i snapc ci hok hci hnp]
      · obtain ⟨cs, hio, _, _, _, _, _, _, _, _⟩ :=
          queue_cap_snap_no_pending o st i snapc ci hci hok
            (bool_false_of_ne_true hnp)
        rw [hio, alookup_aset_ne _ _ _ _ hij]
  · rw [queue_cap_snap_noop_alloc o st i snapc hok]

theorem queueWithCtx_realms (o : AllocOracle) (st : Mdsc) (i : Nat)
    (c : Option SnapContext) :
    (queueWithCtx o st i c).snap_realms = st.snap_realms := by
  cases c with
  | none => rfl
  | some snapc => exact queue_cap_snap_realms o st i snapc

theorem queueWithCtx_sessions (o : AllocOracle) (st : Mdsc) (i : Nat)
    (c : Option SnapContext) :
    (queueWithCtx o st i c).sessions = st.sessions := by
  cases c with
  | none => rfl
  | some snapc => exact queue_cap_snap_sessions o st i snapc

theorem queueWithCtx_inodes_other (o : AllocOracle) (st : Mdsc) (i j : Nat)
    (c : Option SnapContext) (hij : j ≠ i) :
    alookup (queueWithCtx o st i c).inodes j = alookup st.inodes j := by
  cases c with
  | none => rfl
  | some snapc => exact queue_cap_snap_inodes_other o st i j snapc hij

theorem foldq_realms (o : AllocOracle) (c : Option SnapContext) (l : List Nat)
    (st : Mdsc) :
    (List.foldl (fun s j => queueWithCtx o s j c) st l).snap_realms =
      st.snap_realms := by
  induction l generalizing st with
  | nil => rfl
  | cons hd tl ih =>
    rw [List.foldl_cons, ih, queueWithCtx_realms]

theorem foldq_sessions (o : AllocOracle) (c : Option SnapContext) (l : List Nat)
    (st : Mdsc) :
    (List.foldl (fun s j => queueWithCtx o s j c) st l).sessions = st.sessions := by
  induction l generalizing st with
  | nil => rfl
  | cons hd tl ih =>
    rw [List.foldl_cons, ih, queueWithCtx_sessions]

theorem foldq_inodes_notin (o : AllocOracle) (c : Option SnapContext)
    (l : List Nat) (st : Mdsc) (i : Nat) (hni : i ∉ l) :
    alookup (List.foldl (fun s j => queueWithCtx o s j c) st l).inodes i =
      alookup st.inodes i := by
  induction l generalizing st with
  | nil => rfl
  | cons hd tl ih =>
    rw [List.foldl_cons]
    have hi : i ≠ hd := fun h => hni (h ▸ List.mem_cons_self hd tl)
    rw [ih _ (fun h => hni (List.mem_cons_of_mem hd h)),
        queueWithCtx_inodes_other o st hd i c hi]

theorem get_snap_realm_present (o : AllocOracle) (m : RealmMap) (ino : Nat)
    (r : SnapRealm) (h : alookup m ino = some r) :
    ceph_get_snap_realm o m ino =
      (aset m ino {r with nref := r.nref + 1}, Except.ok ino) := by
  rw [ceph_get_snap_realm, h]

/-- The realm entry after the get and the optional first-realm reference
bump: only nref differs from the stored realm. -/
theorem bump_lookup (m : RealmMap) (ino : Nat) (r : SnapRealm) (isFirst : Bool)
    (h : alookup m ino = some r) :
    ∃ rB : SnapRealm,
      alookup (if isFirst then
          bumpNref (aset m ino {r with nref := r.nref + 1}) ino
        else aset m ino {r with nref := r.nref + 1}) ino = some rB ∧
      rB.seq = r.seq ∧ rB.cached_context = r.cached_context ∧
      rB.inodes_with_caps = r.inodes_with_caps := by
  cases isFirst with
  | false =>
    refine ⟨{r with nref := r.nref + 1}, ?_, rfl, rfl, rfl⟩
    simp only [if_neg Bool.false_ne_true]
    exact alookup_aset_self _ _ _ _ h
  | true =>
    have h2 : alookup (aset m ino {r with nref := r.nref + 1}) ino =
        some {r with nref := r.nref + 1} := alookup_aset_self _ _ _ _ h
    refine ⟨{r with nref := r.nref + 1 + 1}, ?_, rfl, rfl, rfl⟩
    simp only [if_pos rfl]
    rw [bumpNref, h2]
    exact alookup_aset_self _ _ _ _ h2

/-- Running the queue phase of a trace item on a stored realm whose seq
is behind the encoded one: with a deletion nothing is queued, otherwise a
cap-snap is queued on every inode in the realm's pre-update inode list
under the pre-update cached context; the phase succeeds either way. -/
theorem itemQueuePhase_run (o : AllocOracle) (deletion : Bool)
    (enc : MdsSnapRealmEnc) (isFirst : Bool) (st : Mdsc) (r rB : SnapRealm)
    (m2 : RealmMap)
    (h1 : alookup st.snap_realms enc.ino = some r)
    (hm2 : m2 = (if isFirst then
        bumpNref (aset st.snap_realms enc.ino {r with nref := r.nref + 1}) enc.ino
      else aset st.snap_realms enc.ino {r with nref := r.nref + 1}))
    (hrB : alookup m2 enc.ino = some rB)
    (hseq : rB.seq < enc.seq)
    (hcc : rB.cached_context = r.cached_context)
    (hiw : rB.inodes_with_caps = r.inodes_with_caps) :
    itemQueuePhase o deletion enc isFirst st =
      (if deletion then ({st with snap_realms := m2}, Except.ok ())
       else (List.foldl (fun s j => queueWithCtx o s j r.cached_context)
               {st with snap_realms := m2} r.inodes_with_caps, Except.ok ())) := by
  rw [itemQueuePhase]
  simp only [get_snap_realm_present o st.snap_realms enc.ino r h1]
  rw [← hm2, hrB]
  simp only [decide_eq_true hseq, Bool.true_and]
  cases deletion with
  | false =>
    simp only [Bool.not_false, if_neg Bool.false_ne_true]
    rw [hcc, hiw]
    simp
  | true =>
    simp only [Bool.not_true, if_pos rfl]
    simp

/-- The field-copy tail only ever replaces the realm index of the state:
inode table, flush list and sessions pass through untouched. -/
theorem itemFieldsUpdate_frame (o : AllocOracle) (enc : MdsSnapRealmEnc)
    (st4 : Mdsc) (inv1 : Nat) :
    (itemFieldsUpdate o enc st4 inv1).1.inodes = st4.inodes ∧
    (itemFieldsUpdate o enc st4 inv1).1.sessions = st4.sessions ∧
    (itemFieldsUpdate o enc st4 inv1).1.snap_flush_list = st4.snap_flush_list := by
  rw [itemFieldsUpdate]
  split
  · exact ⟨rfl, rfl, rfl⟩
  · split
    · split
      · exact ⟨rfl, rfl, rfl⟩
      · split
        · exact ⟨rfl, rfl, rfl⟩
        · exact ⟨rfl, rfl, rfl⟩
    · split
      · exact ⟨rfl, rfl, rfl⟩
      · exact ⟨rfl, rfl, rfl⟩

/-- The update phase, including the parent adjustment, only ever replaces
the realm index of the state. -/
theorem itemUpdatePhase_frame (o : AllocOracle) (fuel : Nat)
    (enc : MdsSnapRealmEnc) (st : Mdsc) (inv : Nat) :
    (itemUpdatePhase o fuel enc st inv).1.inodes = st.inodes ∧
    (itemUpdatePhase o fuel enc st inv).1.sessions = st.sessions ∧
    (itemUpdatePhase o fuel enc st inv).1.snap_flush_list = st.snap_flush_list := by
  rcases hadj : adjust_snap_realm_parent o fuel st.snap_realms enc.ino enc.parent
    with ⟨m4, res⟩
  rw [itemUpdatePhase, hadj]
  cases res with
  | error e => exact ⟨rfl, rfl, rfl⟩
  | ok adj =>
    exact itemFieldsUpdate_frame o enc {st with snap_realms := m4} (inv + adj)

/-- A key update whose new value keeps the stored seq preserves the seq
seen through any lookup. -/
theorem aset_lookup_back_seq (m : RealmMap) (k j : Nat) (v r' : SnapRealm)
    (h : alookup (aset m k v) j = some r')
    (hv : ∀ rOld, alookup m k = some rOld → v.seq = rOld.seq) :
    ∃ r0, alookup m j = some r0 ∧ r'.seq = r0.seq := by
  rw [alookup_aset] at h
  by_cases hjk : j = k
  · rw [if_pos hjk] at h
    cases hk : alookup m k with
    | none => rw [hk] at h; exact absurd h (by simp)
    | some rOld =>
      rw [hk] at h
      injection h with he
      subst hjk
      exact ⟨rOld, hk, by rw [← he]; exact hv rOld hk⟩
  · rw [if_neg hjk] at h
    exact ⟨r', h, rfl⟩

/-- Backward lookup through the parent-unhook step of a teardown: the
child-list erase on the parent preserves every seq, and the recursive
reference drop is handled by the supplied induction hypothesis. -/
theorem put_parent_chain_back (fuel : Nat) (m1 : RealmMap) (ino : Nat)
    (po : Option Nat) (j : Nat) (r' : SnapRealm)
    (IH : ∀ (mm : RealmMap) (pp jj : Nat) (rr : SnapRealm),
      alookup (ceph_put_snap_realm fuel mm pp) jj = some rr →
      ∃ r0, alookup mm jj = some r0 ∧ rr.seq = r0.seq)
    (h : alookup
      (match po with
       | some p =>
         ceph_put_snap_realm fuel
           (match alookup m1 p with
            | some pr => aset m1 p {pr with children := pr.children.erase ino}
            | none => m1) p
       | none => m1) j = some r') :
    ∃ r0, alookup m1 j = some r0 ∧ r'.seq = r0.seq := by
  cases po with
  | none => exact ⟨r', h, rfl⟩
  | some p =>
    have h1 : alookup (ceph_put_snap_realm fuel
        (match alookup m1 p with
         | some pr => aset m1 p {pr with children := pr.children.erase ino}
         | none => m1) p) j = some r' := h
    cases hpl : alookup m1 p with
    | none =>
      rw [hpl] at h1
      exact IH m1 p j r' h1
    | some pr =>
      rw [hpl] at h1
      have h2 : alookup (ceph_put_snap_realm fuel
          (aset m1 p {pr with children := pr.children.erase ino}) p) j =
          some r' := h1
      obtain ⟨r0, hr0, hs⟩ := IH _ p j r' h2
      obtain ⟨r1, hr1, hs1⟩ := aset_lookup_back_seq m1 p j _ r0 hr0
        (fun rOld hOld => by rw [hpl] at hOld; injection hOld with he; rw [he])
      exact ⟨r1, hr1, by rw [hs, hs1]⟩

/-- Dropping realm references never changes the seq of a realm that is
still found afterwards. -/
theorem put_lookup_back_seq : ∀ (fuel : Nat) (m : RealmMap) (ino j : Nat)
    (r' : SnapRealm),
    alookup (ceph_put_snap_realm fuel m ino) j = some r' →
    ∃ r0, alookup m j = some r0 ∧ r'.seq = r0.seq
  | 0, m, ino, j, r', h => ⟨r', h, rfl⟩
  | fuel + 1, m, ino, j, r', h => by
    cases hino : alookup m ino with
    | none =>
      have e : ceph_put_snap_realm (fuel + 1) m ino = m := by
        rw [ceph_put_snap_realm, hino]
      rw [e] at h
      exact ⟨r', h, rfl⟩
    | some r =>
      have hstep := put_snap_realm_step fuel m ino r hino
      by_cases hz : r.nref - 1 = 0
      · rw [if_pos hz] at hstep
        rw [hstep, alookup_aerase] at h
        by_cases hji : j = ino
        · rw [if_pos hji] at h
          exact absurd h (by simp)
        · rw [if_neg hji] at h
          obtain ⟨r0, hr0, hs⟩ := put_parent_chain_back fuel
            (aset m ino {r with nref := r.nref - 1}) ino
            (({r with nref := r.nref - 1} : SnapRealm).parent) j r'
            (put_lookup_back_seq fuel) h
          rw [alookup_aset_ne _ _ _ _ hji] at hr0
          exact ⟨r0, hr0, hs⟩
      · rw [if_neg hz] at hstep
        rw [hstep] at h
        by_cases hji : j = ino
        · subst hji
          rw [alookup_aset_self _ _ _ _ hino] at h
          injection h with he
          exact ⟨r, hino, by rw [← he]⟩
        · rw [alookup_aset_ne _ _ _ _ hji] at h
          exact ⟨r', h, rfl⟩

/-- Looking up or creating a realm never changes the seq of a realm that
was already present. -/
theorem get_lookup_back_seq (o : AllocOracle) (m : RealmMap) (ino j : Nat)
    (r' : SnapRealm)
    (h : alookup (ceph_get_snap_realm o m ino).1 j = some r') :
    (∃ r0, alookup m j = some r0 ∧ r'.seq = r0.seq) ∨ alookup m j = none := by
  cases hino : alookup m ino with
  | some r =>
    rw [get_snap_realm_present o m ino r hino] at h
    have h2 : alookup (aset m ino {r with nref := r.nref + 1}) j = some r' := h
    left
    exact aset_lookup_back_seq m ino j _ r' h2
      (fun rOld hOld => by rw [hino] at hOld; injection hOld with he; rw [he])
  | none =>
    by_cases hok : o.realmOk ino = true
    · have e : ceph_get_snap_realm o m ino =
          ((ino, ⟨ino, 1, 0, 0, 0, none, 0, [], [], none, [], []⟩) :: m,
           Except.ok ino) := by
        rw [ceph_get_snap_realm, hino, hok]
        simp
      rw [e] at h
      by_cases hji : j = ino
      · subst hji
        right
        exact hino
      · left
        have h2 : alookup m j = some r' := by
          rw [alookup] at h
          rw [if_neg hji] at h
          exact h
        exact ⟨r', h2, rfl⟩
    · have e : ceph_get_snap_realm o m ino = (m, Except.error (-12)) := by
        rw [ceph_get_snap_realm, hino]
        simp [bool_false_of_ne_true hok]
      rw [e] at h
      exact Or.inl ⟨r', h, rfl⟩

/-- Backward lookup through the look-up-and-relink suffix of a parent
adjustment: the child's parent-field update and the new parent's
child-list update preserve every seq. -/
theorem adjust_suffix_back (m2 : RealmMap) (ino parentino j : Nat)
    (r' : SnapRealm)
    (h : alookup
      (match alookup m2 ino with
       | none => (m2, (Except.error (-14) : Except Int Nat))
       | some r2 =>
         (match alookup (aset m2 ino {r2 with parent_ino := parentino, parent := some parentino}) parentino with
          | some pr =>
            (aset (aset m2 ino {r2 with parent_ino := parentino, parent := some parentino}) parentino {pr with children := ino :: pr.children}, (Except.ok 1 : Except Int Nat))
          | none =>
            (aset m2 ino {r2 with parent_ino := parentino, parent := some parentino}, (Except.ok 1 : Except Int Nat)))).1 j = some r') :
    ∃ r0, alookup m2 j = some r0 ∧ r'.seq = r0.seq := by
  cases hr2 : alookup m2 ino with
  | none =>
    rw [hr2] at h
    exact ⟨r', h, rfl⟩
  | some r2 =>
    rw [hr2] at h
    have h2 : alookup
        (match alookup (aset m2 ino {r2 with parent_ino := parentino, parent := some parentino}) parentino with
         | some pr =>
           (aset (aset m2 ino {r2 with parent_ino := parentino, parent := some parentino}) parentino {pr with children := ino :: pr.children}, (Except.ok 1 : Except Int Nat))
         | none =>
           (aset m2 ino {r2 with parent_ino := parentino, parent := some parentino}, (Except.ok 1 : Except Int Nat))).1 j = some r' := h
    cases hpr : alookup (aset m2 ino {r2 with parent_ino := parentino, parent := some parentino}) parentino with
    | none =>
      rw [hpr] at h2
      have h3 : alookup (aset m2 ino {r2 with parent_ino := parentino, parent := some parentino}) j = some r' := h2
      exact aset_lookup_back_seq m2 ino j _ r' h3
        (fun rOld hOld => by rw [hr2] at hOld; injection hOld with he; rw [he])
    | some pr =>
      rw [hpr] at h2
      have h3 : alookup (aset (aset m2 ino {r2 with parent_ino := parentino, parent := some parentino}) parentino {pr with children := ino :: pr.children}) j = some r' := h2
      obtain ⟨r0, hr0, hs⟩ := aset_lookup_back_seq _ parentino j _ r' h3
        (fun rOld hOld => by rw [hpr] at hOld; injection hOld with he; rw [he])
      obtain ⟨r1, hr1, hs1⟩ := aset_lookup_back_seq m2 ino j _ r0 hr0
        (fun rOld hOld => by rw [hr2] at hOld; injection hOld with he; rw [he])
      exact ⟨r1, hr1, by rw [hs, hs1]⟩

/-- Adjusting a realm's parent never changes the seq of a realm already
in the index; realms it creates are not in the original index. -/
theorem adjust_lookup_back_seq (o : AllocOracle) (fuel : Nat) (m : RealmMap)
    (ino parentino j : Nat) (r' : SnapRealm)
    (h : alookup (adjust_snap_realm_parent o fuel m ino parentino).1 j =
      some r') :
    (∃ r0, alookup m j = some r0 ∧ r'.seq = r0.seq) ∨ alookup m j = none := by
  cases hino : alookup m ino with
  | none =>
    have e : (adjust_snap_realm_parent o fuel m ino parentino).1 = m := by
      rw [adjust_snap_realm_parent, hino]
    rw [e] at h
    exact Or.inl ⟨r', h, rfl⟩
  | some r =>
    by_cases hpe : r.parent_ino = parentino
    · have e : (adjust_snap_realm_parent o fuel m ino parentino).1 = m := by
        rw [adjust_snap_realm_parent, hino]
        simp [hpe]
      rw [e] at h
      exact Or.inl ⟨r', h, rfl⟩
    · rcases hget : ceph_get_snap_realm o m parentino with ⟨m1, res⟩
      cases res with
      | error e0 =>
        have e : (adjust_snap_realm_parent o fuel m ino parentino).1 = m := by
          rw [adjust_snap_realm_parent, hino]
          simp [hpe, hget]
        rw [e] at h
        exact Or.inl ⟨r', h, rfl⟩
      | ok k =>
        have hm1 : ∀ jj rr, alookup m1 jj = some rr →
            (∃ r0, alookup m jj = some r0 ∧ rr.seq = r0.seq) ∨
              alookup m jj = none := by
          intro jj rr hjj
          have hjj' : alookup (ceph_get_snap_realm o m parentino).1 jj =
              some rr := by
            rw [hget]
            exact hjj
          exact get_lookup_back_seq o m parentino jj rr hjj'
        have e : (adjust_snap_realm_parent o fuel m ino parentino).1 =
            (match alookup (match (alookup m1 ino).bind (fun rr => rr.parent) with
               | some oldp =>
                 ceph_put_snap_realm fuel
                   (match alookup m1 oldp with
                    | some opr => aset m1 oldp {opr with children := opr.children.erase ino}
                    | none => m1) oldp
               | none => m1) ino with
             | none =>
               ((match (alookup m1 ino).bind (fun rr => rr.parent) with
                 | some oldp =>
                   ceph_put_snap_realm fuel
                     (match alookup m1 oldp with
                      | some opr => aset m1 oldp {opr with children := opr.children.erase ino}
                      | none => m1) oldp
                 | none => m1), (Except.error (-14) : Except Int Nat))
             | some r2 =>
               (match alookup (aset (match (alookup m1 ino).bind (fun rr => rr.parent) with
                   | some oldp =>
                     ceph_put_snap_realm fuel
                       (match alookup m1 oldp with
                        | some opr => aset m1 oldp {opr with children := opr.children.erase ino}
                        | none => m1) oldp
                   | none => m1) ino {r2 with parent_ino := parentino, parent := some parentino}) parentino with
                | some pr =>
                  (aset (aset (match (alookup m1 ino).bind (fun rr => rr.parent) with
                     | some oldp =>
                       ceph_put_snap_realm fuel
                         (match alookup m1 oldp with
                          | some opr => aset m1 oldp {opr with children := opr.children.erase ino}
                          | none => m1) oldp
                     | none => m1) ino {r2 with parent_ino := parentino, parent := some parentino}) parentino {pr with children := ino :: pr.children}, (Except.ok 1 : Except Int Nat))
                | none =>
                  (aset (match (alookup m1 ino).bind (fun rr => rr.parent) with
                     | some oldp =>
                       ceph_put_snap_realm fuel
                         (match alookup m1 oldp with
                          | some opr => aset m1 oldp {opr with children := opr.children.erase ino}
                          | none => m1) oldp
                     | none => m1) ino {r2 with parent_ino := parentino, parent := some parentino}, (Except.ok 1 : Except Int Nat)))).1 := by
          rw [adjust_snap_realm_parent, hino]
          simp only [hpe, hget]
          rfl
        rw [e] at h
        obtain ⟨r0, hr0, hs⟩ := adjust_suffix_back _ ino parentino j r' h
        obtain ⟨r1, hr1, hs1⟩ := put_parent_chain_back fuel m1 ino
          ((alookup m1 ino).bind (fun rr => rr.parent)) j r0
          (put_lookup_back_seq fuel) hr0
        rcases hm1 j r1 hr1 with ⟨rz, hrz, hsz⟩ | hnone
        · exact Or.inl ⟨rz, hrz, by rw [hs, hs1, hsz]⟩
        · exact Or.inr hnone

/-- When the stored seq is behind the encoded one and the field copy
succeeds, the realm ends up carrying the encoded seq. -/
theorem itemFieldsUpdate_ok_seq (o : AllocOracle) (enc : MdsSnapRealmEnc)
    (st4 : Mdsc) (inv1 : Nat) (st' : Mdsc) (inv' : Nat) (r1 : SnapRealm)
    (halk : alookup st4.snap_realms enc.ino = some r1)
    (hseq : r1.seq < enc.seq)
    (h : itemFieldsUpdate o enc st4 inv1 = (st', Except.ok inv')) :
    ∃ r4, alookup st'.snap_realms enc.ino = some r4 ∧ r4.seq = enc.seq := by
  rw [itemFieldsUpdate, halk] at h
  simp only [decide_eq_true hseq, if_true] at h
  split at h
  · exact absurd h (by simp)
  · split at h
    · exact absurd h (by simp)
    · injection h with hST hINV
      rw [← hST]
      exact ⟨_, alookup_aset_self _ _ _ _ halk, rfl⟩

/-! Claim C3: cap-snaps are queued before the realm update, under the
pre-update context. -/

/-- Claim C3: while processing one encoded realm of a snap trace whose
seq is ahead of the stored realm's, when the operation is not a deletion
a cap-snap capturing the realm's current (pre-update) cached context is
queued on each inode in the realm's inode list (stated for an inode
listed once, with no pending cap-snap and a successful allocation) before
any realm field changes; for a deletion the inode is left untouched; and
whenever the item succeeds the realm's seq has been moved to the encoded
seq - so the queued cap-snap provably predates the update. -/
theorem update_snap_trace_item_queue_spec (o : AllocOracle) (fuel : Nat)
    (deletion : Bool) (enc : MdsSnapRealmEnc) (isFirst : Bool) (st : Mdsc)
    (inv : Nat) (r : SnapRealm) (c : SnapContext) (i : Nat) (ci : CephInode)
    (l1 l2 : List Nat)
    (h1 : alookup st.snap_realms enc.ino = some r)
    (hc : r.cached_context = some c)
    (hseq : r.seq < enc.seq)
    (hsplit : r.inodes_with_caps = l1 ++ i :: l2)
    (hi1 : i ∉ l1) (hi2 : i ∉ l2)
    (hci : alookup st.inodes i = some ci)
    (hnp : havePending ci = false)
    (hok : o.capsnapOk i = true) :
    (deletion = false →
      ∃ cs : CapSnap,
        alookup (updateSnapTraceItem o fuel deletion enc isFirst st inv).1.inodes i =
          some {ci with i_wrbuffer_ref_head := 0,
                        i_cap_snaps := ci.i_cap_snaps ++ [cs]} ∧
        cs.context = c) ∧
    (deletion = true →
      alookup (updateSnapTraceItem o fuel deletion enc isFirst st inv).1.inodes i =
        some ci) ∧
    (∀ st' inv',
      updateSnapTraceItem o fuel deletion enc isFirst st inv =
        (st', Except.ok inv') →
      ∃ r4, alookup st'.snap_realms enc.ino = some r4 ∧ r4.seq = enc.seq) := by
  obtain ⟨M2, hM2⟩ : ∃ M2 : RealmMap, M2 =
      (if isFirst then
        bumpNref (aset st.snap_realms enc.ino {r with nref := r.nref + 1}) enc.ino
      else aset st.snap_realms enc.ino {r with nref := r.nref + 1}) := ⟨_, rfl⟩
  obtain ⟨rB, hrB0, hrBseq, hrBcc, hrBiw⟩ :=
    bump_lookup st.snap_realms enc.ino r isFirst h1
  have hrB : alookup M2 enc.ino = some rB := by
    rw [hM2]
    exact hrB0
  have hrun := itemQueuePhase_run o deletion enc isFirst st r rB M2 h1 hM2 hrB
    (by rw [hrBseq]; exact hseq) hrBcc hrBiw
  obtain ⟨SB, hSB⟩ : ∃ SB : Mdsc, SB = {st with snap_realms := M2} := ⟨_, rfl⟩
  obtain ⟨SQ, hSQ⟩ : ∃ SQ : Mdsc, SQ =
      List.foldl (fun s j => queueWithCtx o s j r.cached_context) SB
        r.inodes_with_caps := ⟨_, rfl⟩
  rw [← hSB] at hrun
  rw [← hSQ] at hrun
  have hSBi : SB.inodes = st.inodes := by rw [hSB]
  have hSBr : SB.snap_realms = M2 := by rw [hSB]
  have hSQr : SQ.snap_realms = M2 := by
    rw [hSQ, foldq_realms, hSBr]
  refine ⟨?_, ?_, ?_⟩
  · intro hdel
    subst hdel
    rw [if_neg Bool.false_ne_true] at hrun
    have hitem : updateSnapTraceItem o fuel false enc isFirst st inv =
        itemUpdatePhase o fuel enc SQ inv := by
      rw [updateSnapTraceItem, hrun]
    have hfr := (itemUpdatePhase_frame o fuel enc SQ inv).1
    rw [hitem, hfr]
    obtain ⟨SM, hSM⟩ : ∃ SM : Mdsc, SM =
        List.foldl (fun s j => queueWithCtx o s j r.cached_context) SB l1 :=
      ⟨_, rfl⟩
    have hciMid : alookup SM.inodes i = some ci := by
      rw [hSM, foldq_inodes_notin o r.cached_context l1 SB i hi1, hSBi]
      exact hci
    have hSQ2 : SQ = List.foldl (fun s j => queueWithCtx o s j r.cached_context)
        (queueWithCtx o SM i r.cached_context) l2 := by
      rw [hSQ, hsplit, List.foldl_append, List.foldl_cons, ← hSM]
    rw [hSQ2, foldq_inodes_notin o r.cached_context l2 _ i hi2]
    obtain ⟨cs, hio, _, _, hctx, _, _, _, _, _⟩ :=
      queue_cap_snap_no_pending o SM i c ci hciMid hok hnp
    refine ⟨cs, ?_, hctx⟩
    rw [hc]
    show alookup (ceph_queue_cap_snap o SM i c).inodes i = _
    rw [hio]
    exact alookup_aset_self _ _ _ _ hciMid
  · intro hdel
    subst hdel
    rw [if_pos rfl] at hrun
    have hitem : updateSnapTraceItem o fuel true enc isFirst st inv =
        itemUpdatePhase o fuel enc SB inv := by
      rw [updateSnapTraceItem, hrun]
    have hfr := (itemUpdatePhase_frame o fuel enc SB inv).1
    rw [hitem, hfr, hSBi]
    exact hci
  · intro st' inv' hEq
    have hstQ : ∃ stQ : Mdsc,
        updateSnapTraceItem o fuel deletion enc isFirst st inv =
          itemUpdatePhase o fuel enc stQ inv ∧ stQ.snap_realms = M2 := by
      cases deletion with
      | false =>
        rw [if_neg Bool.false_ne_true] at hrun
        exact ⟨SQ, by rw [updateSnapTraceItem, hrun], hSQr⟩
      | true =>
        rw [if_pos rfl] at hrun
        exact ⟨SB, by rw [updateSnapTraceItem, hrun], hSBr⟩
    obtain ⟨stQ, hitem, hstQr⟩ := hstQ
    rw [hitem] at hEq
    rcases hadj : adjust_snap_realm_parent o fuel stQ.snap_realms enc.ino
        enc.parent with ⟨m4, res⟩
    rw [itemUpdatePhase, hadj] at hEq
    cases res with
    | error e => simp at hEq
    | ok adj =>
      have hEq2 : itemFieldsUpdate o enc {stQ with snap_realms := m4}
          (inv + adj) = (st', Except.ok inv') := hEq
      cases halk : alookup m4 enc.ino with
      | none =>
        rw [itemFieldsUpdate] at hEq2
        have halk' : alookup ({stQ with snap_realms := m4} : Mdsc).snap_realms
            enc.ino = none := halk
        rw [halk'] at hEq2
        exact absurd hEq2 (by simp)
      | some r1 =>
        have halk' : alookup ({stQ with snap_realms := m4} : Mdsc).snap_realms
            enc.ino = some r1 := halk
        have hr1seq : r1.seq < enc.seq := by
          have hadj1 : (adjust_snap_realm_parent o fuel stQ.snap_realms enc.ino
              enc.parent).1 = m4 := by rw [hadj]
          have hback := adjust_lookup_back_seq o fuel stQ.snap_realms enc.ino
            enc.parent enc.ino r1 (by rw [hadj1]; exact halk)
          rcases hback with ⟨r0, hr0, hs0⟩ | hnone
          · rw [hstQr, hrB] at hr0
            injection hr0 with he
            rw [hs0, ← he, hrBseq]
            exact hseq
          · rw [hstQr, hrB] at hnone
            exact absurd hnone (by simp)
        exact itemFieldsUpdate_ok_seq o enc _ (inv + adj) st' inv' r1 halk'
          hr1seq hEq2

/-- Realm 5 for the trace-item witness: one inode with caps, a built
context, stored seq 1. -/
def rC3 : SnapRealm :=
  {rlm 5 with seq := 1, cached_context := some ⟨1, [4]⟩, inodes_with_caps := [10]}

/-- State for the trace-item witness. -/
def stC3 : Mdsc :=
  { snap_realms := [(5, rC3)], snap_flush_list := [],
    inodes := [(10, ⟨0, 0, 0, 0, 0, 3, 0, 0, [], some 5⟩)], sessions := [] }

/-- Encoded realm 5 with seq 3 ahead of the stored seq 1. -/
def encC3 : MdsSnapRealmEnc := ⟨5, 2, 3, 0, 0, [2], []⟩

/-- Witness for claim C3 at a one-realm, one-inode state. -/
theorem update_snap_trace_item_queue_spec_witness :
    alookup stC3.snap_realms encC3.ino = some rC3 ∧
    rC3.cached_context = some ⟨1, [4]⟩ ∧
    rC3.seq < encC3.seq ∧
    rC3.inodes_with_caps = [] ++ 10 :: [] ∧
    (10 : Nat) ∉ ([] : List Nat) ∧
    alookup stC3.inodes 10 = some ⟨0, 0, 0, 0, 0, 3, 0, 0, [], some 5⟩ ∧
    havePending (⟨0, 0, 0, 0, 0, 3, 0, 0, [], some 5⟩ : CephInode) = false ∧
    oAll.capsnapOk 10 = true ∧
    ((false = false →
      ∃ cs : CapSnap,
        alookup (updateSnapTraceItem oAll 5 false encC3 true stC3 0).1.inodes 10 =
          some {(⟨0, 0, 0, 0, 0, 3, 0, 0, [], some 5⟩ : CephInode) with
                  i_wrbuffer_ref_head := 0,
                  i_cap_snaps :=
                    (⟨0, 0, 0, 0, 0, 3, 0, 0, [], some 5⟩ : CephInode).i_cap_snaps ++
                      [cs]} ∧
        cs.context = ⟨1, [4]⟩) ∧
    (false = true →
      alookup (updateSnapTraceItem oAll 5 false encC3 true stC3 0).1.inodes 10 =
        some ⟨0, 0, 0, 0, 0, 3, 0, 0, [], some 5⟩) ∧
    (∀ st' inv',
      updateSnapTraceItem oAll 5 false encC3 true stC3 0 =
        (st', Except.ok inv') →
      ∃ r4, alookup st'.snap_realms encC3.ino = some r4 ∧ r4.seq = encC3.seq)) :=
  ⟨rfl, rfl, by decide, rfl, by decide, rfl, rfl, rfl,
   update_snap_trace_item_queue_spec oAll 5 false encC3 true stC3 0 rC3
     ⟨1, [4]⟩ 10 ⟨0, 0, 0, 0, 0, 3, 0, 0, [], some 5⟩ [] [] rfl rfl
     (by decide) rfl (by decide) (by decide) rfl rfl rfl⟩

/-! Claim C9: decode failures and the mds session. -/

theorem itemQueuePhase_sessions (o : AllocOracle) (deletion : Bool)
    (enc : MdsSnapRealmEnc) (isFirst : Bool) (st : Mdsc) :
    (itemQueuePhase o deletion enc isFirst st).1.sessions = st.sessions := by
  rcases hget : ceph_get_snap_realm o st.snap_realms enc.ino with ⟨m1, res⟩
  rw [itemQueuePhase, hget]
  cases res with
  | error e => rfl
  | ok k =>
    show (match alookup (if isFirst then bumpNref m1 enc.ino else m1) enc.ino with
          | none =>
            (({st with snap_realms := (if isFirst then bumpNref m1 enc.ino else m1)} : Mdsc),
             (Except.error (-14) : Except Int Unit))
          | some r =>
            if decide (r.seq < enc.seq) && !deletion then
              (List.foldl (fun s i => queueWithCtx o s i r.cached_context)
                {st with snap_realms := (if isFirst then bumpNref m1 enc.ino else m1)}
                r.inodes_with_caps, Except.ok ())
            else
              ({st with snap_realms := (if isFirst then bumpNref m1 enc.ino else m1)},
               Except.ok ())).1.sessions = st.sessions
    cases halk : alookup (if isFirst then bumpNref m1 enc.ino else m1) enc.ino with
    | none => rfl
    | some r =>
      show (if decide (r.seq < enc.seq) && !deletion then
            (List.foldl (fun s i => queueWithCtx o s i r.cached_context)
              {st with snap_realms := (if isFirst then bumpNref m1 enc.ino else m1)}
              r.inodes_with_caps, Except.ok ())
          else
            (({st with snap_realms := (if isFirst then bumpNref m1 enc.ino else m1)} : Mdsc),
             (Except.ok () : Except Int Unit))).1.sessions = st.sessions
      split
      · exact foldq_sessions o _ _ _
      · rfl

theorem updateSnapTraceItem_sessions (o : AllocOracle) (fuel : Nat)
    (deletion : Bool) (enc : MdsSnapRealmEnc) (isFirst : Bool) (st : Mdsc)
    (inv : Nat) :
    (updateSnapTraceItem o fuel deletion enc isFirst st inv).1.sessions =
      st.sessions := by
  rw [updateSnapTraceItem]
  rcases hq : itemQueuePhase o deletion enc isFirst st with ⟨st3, res⟩
  have hs3 : st3.sessions = st.sessions := by
    have h := itemQueuePhase_sessions o deletion enc isFirst st
    rw [hq] at h
    exact h
  cases res with
  | error e => exact hs3
  | ok u => exact ((itemUpdatePhase_frame o fuel enc st3 inv).2.1).trans hs3

theorem ustLoop_sessions (o : AllocOracle) (fuel : Nat) (deletion : Bool) :
    ∀ (trace : List MdsSnapRealmEnc) (truncated : Bool) (st : Mdsc)
      (first : Option Nat) (inv : Nat),
    (ustLoop o fuel deletion trace truncated st first inv).1.sessions =
      st.sessions
  | [], truncated, st, first, inv => by
    cases first <;> cases truncated <;> rfl
  | enc :: rest, truncated, st, first, inv => by
    rw [ustLoop]
    rcases hit : updateSnapTraceItem o fuel deletion enc first.isNone st inv
      with ⟨st1, res⟩
    have hs1 : st1.sessions = st.sessions := by
      have h := updateSnapTraceItem_sessions o fuel deletion enc first.isNone st inv
      rw [hit] at h
      exact h
    cases res with
    | error e => exact hs1
    | ok inv1 =>
      refine Eq.trans (ustLoop_sessions o fuel deletion rest truncated _ _ _)
        (Eq.trans ?_ hs1)
      show (if rest.isEmpty && !truncated && decide (inv1 ≠ 0) then
          ({st1 with snap_realms :=
            rebuild_snap_realms o fuel st1.snap_realms enc.ino} : Mdsc)
        else st1).sessions = st1.sessions
      split <;> rfl

theorem ustLoop_truncated_error (o : AllocOracle) (fuel : Nat) (deletion : Bool) :
    ∀ (trace : List MdsSnapRealmEnc) (st : Mdsc) (first : Option Nat) (inv : Nat),
    ∃ e, (ustLoop o fuel deletion trace true st first inv).2 = Except.error e
  | [], st, first, inv => by
    cases first <;> exact ⟨-22, rfl⟩
  | enc :: rest, st, first, inv => by
    rw [ustLoop]
    rcases hit : updateSnapTraceItem o fuel deletion enc first.isNone st inv
      with ⟨st1, res⟩
    cases res with
    | error e => exact ⟨e, rfl⟩
    | ok inv1 => exact ustLoop_truncated_error o fuel deletion rest _ _ _

theorem splitPhase1Inode_sessions (o : AllocOracle) (nc : Nat) (st : Mdsc)
    (i : Nat) : (splitPhase1Inode o nc st i).sessions = st.sessions := by
  rw [splitPhase1Inode]
  split
  · rfl
  · split
    · rfl
    · split
      · rfl
      · split
        · rfl
        · exact queueWithCtx_sessions o _ i _

theorem splitPhase1_sessions (o : AllocOracle) (nc : Nat) (l : List Nat)
    (st : Mdsc) :
    (List.foldl (splitPhase1Inode o nc) st l).sessions = st.sessions := by
  induction l generalizing st with
  | nil => rfl
  | cons hd tl ih =>
    rw [List.foldl_cons, ih, splitPhase1Inode_sessions]

theorem sessions_bump_lookup (st : Mdsc) (src mds sq sq0 : Nat)
    (hmds : alookup st.sessions mds = some sq)
    (hsess : alookup st.sessions src = some sq0) :
    ∃ sq', alookup (aset st.sessions src (sq0 + 1)) mds = some sq' ∧
      (sq' = sq ∨ sq' = sq + 1) := by
  by_cases h : mds = src
  · subst h
    rw [hmds] at hsess
    injection hsess with he
    subst he
    exact ⟨sq + 1, alookup_aset_self _ _ _ _ hmds, Or.inr rfl⟩
  · exact ⟨sq, by rw [alookup_aset_ne _ _ _ _ h]; exact hmds, Or.inl rfl⟩

theorem splitPrepare_sessions (o : AllocOracle) (fuel : Nat) (b : SnapMsgBody)
    (created : Nat) (m1 : RealmMap) (st0 : Mdsc) :
    (splitPrepare o fuel b created m1 st0).sessions = st0.sessions := by
  rw [splitPrepare]
  exact splitPhase1_sessions o created b.split_inos {st0 with snap_realms := m1}

theorem traceFinishSplit_error_sessions (fuel : Nat) (b : SnapMsgBody)
    (p : Mdsc × Except Int Nat) (he : ∃ e, p.2 = Except.error e) :
    (traceFinishSplit fuel b p).sessions = p.1.sessions := by
  rcases p with ⟨st4, res⟩
  cases res with
  | error e => rfl
  | ok f =>
    rcases he with ⟨e, he⟩
    exact Except.noConfusion he

theorem traceFinishPlain_error_sessions (fuel : Nat)
    (p : Mdsc × Except Int Nat) (he : ∃ e, p.2 = Except.error e) :
    (traceFinishPlain fuel p).sessions = p.1.sessions := by
  rcases p with ⟨st4, res⟩
  cases res with
  | error e => rfl
  | ok f =>
    rcases he with ⟨e, he⟩
    exact Except.noConfusion he

/-- A message body whose trace fails to decode leaves the session table
exactly as it stood after the session seq bump. -/
theorem handleSnapOps_sessions_truncated (o : AllocOracle) (fuel : Nat)
    (b : SnapMsgBody) (st0 : Mdsc) (hbt : b.truncated = true) :
    (handleSnapOps o fuel b st0).sessions = st0.sessions := by
  rw [handleSnapOps]
  by_cases hop : b.op = CEPH_SNAP_OP_SPLIT
  · rw [if_pos hop]
    cases htr : b.trace with
    | nil => rfl
    | cons ri rest =>
      rcases hget : ceph_get_snap_realm o st0.snap_realms b.split with ⟨m1, res⟩
      cases res with
      | error e => rfl
      | ok u =>
        rw [hbt]
        obtain ⟨e, he⟩ := ustLoop_truncated_error o fuel
          (decide (b.op = CEPH_SNAP_OP_DESTROY)) (ri :: rest)
          (splitPrepare o fuel b ri.created m1 st0) none 0
        have hses := ustLoop_sessions o fuel
          (decide (b.op = CEPH_SNAP_OP_DESTROY)) (ri :: rest) true
          (splitPrepare o fuel b ri.created m1 st0) none 0
        exact Eq.trans (traceFinishSplit_error_sessions fuel b _ ⟨e, he⟩)
          (Eq.trans hses (splitPrepare_sessions o fuel b ri.created m1 st0))
  · rw [if_neg hop, hbt]
    obtain ⟨e, he⟩ := ustLoop_truncated_error o fuel
      (decide (b.op = CEPH_SNAP_OP_DESTROY)) b.trace st0 none 0
    have hses := ustLoop_sessions o fuel
      (decide (b.op = CEPH_SNAP_OP_DESTROY)) b.trace true st0 none 0
    exact Eq.trans (traceFinishPlain_error_sessions fuel _ ⟨e, he⟩) hses

/-- One realm, one mds session, and a message from that mds whose trace
decodes one realm record and then hits the end of the buffer early. -/
def stC9x : Mdsc :=
  { snap_realms := [(1, {rlm 1 with cached_context := some ⟨0, []⟩})],
    snap_flush_list := [], inodes := [], sessions := [(4, 0)] }

/-- Snap message whose embedded trace fails to decode after its first
realm record (the truncation flag models ceph_decode_need failing). -/
def msgC9x : CephMsg :=
  { src_type := 2, src_num := 4,
    body := some { op := 0, split := 0, split_inos := [], split_realms := [],
                   trace := [⟨1, 7, 5, 0, 0, [2], []⟩], truncated := true } }

/-- Claim C9 counterexample: a snap message whose embedded trace fails to
decode is not dropped whole - the realm records decoded before the
failure point have already been applied when ceph_handle_snap gives up
(realm 1's seq has moved from 0 to 5), although the mds session is indeed
kept (its seq was bumped once and it is still registered). -/
theorem handle_snap_decode_failure_counterexample :
    (∃ b, msgC9x.body = some b ∧ b.truncated = true) ∧
    (alookup stC9x.snap_realms 1).map SnapRealm.seq = some 0 ∧
    (alookup (ceph_handle_snap oAll 10 stC9x msgC9x).snap_realms 1).map
      SnapRealm.seq = some 5 ∧
    alookup (ceph_handle_snap oAll 10 stC9x msgC9x).sessions 4 = some 1 :=
  ⟨⟨_, rfl, rfl⟩, rfl, rfl, rfl⟩

/-- Claim C9 (amended): when a snap message or its embedded trace fails
to decode, ceph_handle_snap drops the rest of the message and returns
without faulting or tearing down the mds session - realms decoded before
the failure point may already have been updated, but every registered
session survives, with its seq either untouched or bumped once (the
receiving session's normal per-message bump). -/
theorem handle_snap_decode_failure_session_spec (o : AllocOracle) (fuel : Nat)
    (st : Mdsc) (msg : CephMsg) (mds sq : Nat)
    (hfail : msg.body = none ∨ ∃ b, msg.body = some b ∧ b.truncated = true)
    (hmds : alookup st.sessions mds = some sq) :
    ∃ sq', alookup (ceph_handle_snap o fuel st msg).sessions mds = some sq' ∧
      (sq' = sq ∨ sq' = sq + 1) := by
  by_cases ht : msg.src_type = CEPH_ENTITY_TYPE_MDS
  · rw [ceph_handle_snap, if_neg (fun hc => hc ht)]
    rcases hfail with hb | ⟨b, hb, hbt⟩
    · rw [hb]
      exact ⟨sq, hmds, Or.inl rfl⟩
    · rw [hb]
      cases hsess : alookup st.sessions msg.src_num with
      | none => exact ⟨sq, hmds, Or.inl rfl⟩
      | some sq0 =>
        show ∃ sq', alookup (handleSnapOps o fuel b
            {st with sessions := aset st.sessions msg.src_num (sq0 + 1)}).sessions
            mds = some sq' ∧ (sq' = sq ∨ sq' = sq + 1)
        rw [handleSnapOps_sessions_truncated o fuel b _ hbt]
        exact sessions_bump_lookup st msg.src_num mds sq sq0 hmds hsess
  · rw [ceph_handle_snap, if_pos ht]
    exact ⟨sq, hmds, Or.inl rfl⟩

/-- Witness for claim C9 at the truncated one-record trace message. -/
theorem handle_snap_decode_failure_session_spec_witness :
    (msgC9x.body = none ∨ ∃ b, msgC9x.body = some b ∧ b.truncated = true) ∧
    alookup stC9x.sessions 4 = some 0 ∧
    ∃ sq', alookup (ceph_handle_snap oAll 10 stC9x msgC9x).sessions 4 =
      some sq' ∧ (sq' = 0 ∨ sq' = 0 + 1) :=
  ⟨Or.inr ⟨_, rfl, rfl⟩, rfl,
   handle_snap_decode_failure_session_spec oAll 10 stC9x msgC9x 4 0
     (Or.inr ⟨_, rfl, rfl⟩) rfl⟩

/-- Two realms and one inode with caps: the inode lives in realm 2, which
was created at 10, after the incoming split's new realm. -/
def stC4x : Mdsc :=
  { snap_realms :=
      [(1, {rlm 1 with created := 1, seq := 1, cached_context := some ⟨1, []⟩}),
       (2, {rlm 2 with created := 10, seq := 1, nref := 2,
                       cached_context := some ⟨1, []⟩, inodes_with_caps := [100]})],
    snap_flush_list := [],
    inodes := [(100, ⟨0, 0, 0, 0, 0, 0, 0, 0, [], some 2⟩)],
    sessions := [(4, 0)] }

/-- Split notification listing inode 100, whose trace creates realm 3
with created 5 - older than inode 100's current realm. -/
def msgC4x : CephMsg :=
  { src_type := 2, src_num := 4,
    body := some { op := 3, split := 1, split_inos := [100], split_realms := [],
                   trace := [⟨3, 5, 1, 0, 0, [], []⟩], truncated := false } }

/-- Claim C4, exhibiting the code bug: inode 100 lives in realm 2,
created at 10, while the split's new realm (trace record for realm 3)
was created at 5, so the notification is stale for this inode and the
first pass leaves it in place, exactly as the claim (and the code's own
comment) says - but the second pass over the listed inodes runs
unconditionally and reattaches it to the new realm anyway, leaving realm
2 still listing an inode that now points at realm 3. -/
theorem handle_snap_split_stale_inode_bug :
    ((alookup stC4x.inodes 100).map CephInode.i_snap_realm = some (some 2)) ∧
    ((alookup stC4x.snap_realms 2).map SnapRealm.created = some 10) ∧
    (∃ b ri rest, msgC4x.body = some b ∧ b.op = CEPH_SNAP_OP_SPLIT ∧
      b.split_inos = [100] ∧ b.trace = ri :: rest ∧ ri.created = 5) ∧
    ((alookup (ceph_handle_snap oAll 20 stC4x msgC4x).inodes 100).map
      CephInode.i_snap_realm = some (some 3)) ∧
    ((alookup (ceph_handle_snap oAll 20 stC4x msgC4x).snap_realms 2).map
      SnapRealm.inodes_with_caps = some [100]) :=
  ⟨rfl, rfl, ⟨_, _, _, rfl, rfl, rfl, rfl, rfl⟩, rfl, rfl⟩
